import Mathlib

/-!
Verification of the caching and persistence subsystem of `fractalthorns_api.py`
(class `FractalthornsAPI`).

Modelling conventions:
* Python `datetime` values and `timedelta` durations are POSIX seconds (`Int`).
* Python dicts are insertion-ordered association lists; `pyUpdate` mirrors
  CPython `dict.update` with a single key (replace in place, else append).
* Every call to `datetime.now(dt.UTC)` in the source becomes an explicit `Time`
  parameter of the embedded operation, named for the call site.
* Fallible code returns `Except PyError`; the error constructors mirror the
  Python exception classes that can escape the translated code.
-/

deriving instance DecidableEq for Except

namespace Fractalthorns

abbrev Time := Int

/-- A Python dict: insertion-ordered association list.  Real dicts never hold a
duplicate key; operations below implement CPython behaviour and preserve that
invariant when it holds of their input. -/
abbrev PyDict (κ α : Type) : Type := List (κ × α)

/-- Python `d.get(k)` / `d[k]` lookup (as an `Option`). -/
def pyGet? {κ α : Type} [DecidableEq κ] : PyDict κ α → κ → Option α
  | [], _ => none
  | (k, v) :: rest, k' => if k' = k then some v else pyGet? rest k'

/-- Python `d.update({k: v})`: replaces the value in place if `k` is present,
otherwise appends a new entry at the end. -/
def pyUpdate {κ α : Type} [DecidableEq κ] : PyDict κ α → κ → α → PyDict κ α
  | [], k, v => [(k, v)]
  | (k', v') :: rest, k, v =>
      if k = k' then (k, v) :: rest else (k', v') :: pyUpdate rest k v

/-- Python `d.keys()` in iteration order. -/
def pyKeys {κ α : Type} (d : PyDict κ α) : List κ := d.map Prod.fst

/-- Python `d.values()` in iteration order. -/
def pyValues {κ α : Type} (d : PyDict κ α) : List α := d.map Prod.snd

/-- A dict built from a list of key/value pairs in order (the semantics of a
dict comprehension: later pairs with an equal key overwrite earlier ones). -/
def pyFromList {κ α : Type} [DecidableEq κ] (l : List (κ × α)) : PyDict κ α :=
  l.foldl (fun d kv => pyUpdate d kv.1 kv.2) []

/-! ## Cache domains and their fixed configuration -/

/-- `FractalthornsAPI.CacheTypes`: the fixed enumeration of cache domains, in
source declaration order (which is also the iteration order of the enum). -/
inductive CacheTypes where
  | newsItems
  | images
  | imageContents
  | imageDescriptions
  | chapters
  | records
  | recordContents
  | searchResults
  | fullRecordContents
  | cacheMetadata
deriving DecidableEq, Repr

/-- Iteration order of `for i in self.CacheTypes` (enum declaration order). -/
def CacheTypes.all : List CacheTypes :=
  [.newsItems, .images, .imageContents, .imageDescriptions, .chapters,
   .records, .recordContents, .searchResults, .fullRecordContents, .cacheMetadata]

def hours (n : Int) : Time := n * 3600

/-- `FractalthornsAPI.__CACHE_DURATION` (a dict with no entry for the cache
metadata domain; a missing key would be a Python `KeyError`, hence `Option`). -/
def CACHE_DURATION : CacheTypes → Option Time
  | .newsItems => some (hours 12)
  | .images => some (hours 12)
  | .imageContents => some (hours 72)
  | .imageDescriptions => some (hours 72)
  | .chapters => some (hours 12)
  | .records => some (hours 12)
  | .recordContents => some (hours 72)
  | .searchResults => some (hours 12)
  | .fullRecordContents => some (hours 730)
  | .cacheMetadata => none

/-- `FractalthornsAPI.__CACHE_PURGE_COOLDOWN` (no entry for cache metadata). -/
def CACHE_PURGE_COOLDOWN : CacheTypes → Option Time
  | .newsItems => some (hours 1)
  | .images => some (hours 1)
  | .imageContents => some (hours 3)
  | .imageDescriptions => some (hours 3)
  | .chapters => some (hours 1)
  | .records => some (hours 1)
  | .recordContents => some (hours 3)
  | .searchResults => some (hours 1)
  | .fullRecordContents => some (hours 24)
  | .cacheMetadata => none

/-! ## Domain value shapes

Modelled from the spec: the dataclass module `fractalthorns_dataclasses.py` is
not under `src/`; §3 of the spec declares these value shapes opaque to the
cache mechanics, and the persistence invariant says a snapshot reconstructs
the table bit-for-bit.  Accordingly each shape keeps only the fields the
cache/fetch code reads, its JSON-object form is identified with the dataclass
itself, and `from_obj`/`asdict` are mutually inverse. -/

/-- Modelled from the spec: a news entry (opaque to the cache mechanics). -/
structure NewsEntry where
  title : String
deriving DecidableEq, Repr

/-- Modelled from the spec: image metadata; the fetch flows read `name` and
rewrite `image_url`/`thumb_url` to absolute URLs. -/
structure FImage where
  name : String
  image_url : String
  thumb_url : String
deriving DecidableEq, Repr

/-- Modelled from the spec: an image description (opaque to the cache). -/
structure ImageDescription where
  title : String
  description : String
deriving DecidableEq, Repr

/-- Modelled from the spec: a record; the episodic fetch reads `name` and
`solved`. -/
structure Record where
  name : String
  solved : Bool
  title : String
deriving DecidableEq, Repr

/-- Modelled from the spec: a chapter, containing nested records. -/
structure Chapter where
  name : String
  records : List Record
deriving DecidableEq, Repr

/-- Modelled from the spec: record text (title plus ordered lines); the title
is stored inside the serialized object and re-read on load. -/
structure RecordText where
  title : String
  lines : List String
deriving DecidableEq, Repr

/-- Modelled from the spec: a search result (opaque to the cache). -/
structure SearchResult where
  kind : String
deriving DecidableEq, Repr

/-- Modelled from the spec: a decoded binary image payload (the PIL
`Image.Image` objects are byte payloads to this subsystem; §4.3 asserts the
byte-identical round trip through the imaging library). -/
abbrev ImageBin := List Nat

abbrev NewsEntryObj := NewsEntry
abbrev ImageObj := FImage
abbrev ImageDescriptionObj := ImageDescription
abbrev RecordObj := Record
abbrev ChapterObj := Chapter
abbrev RecordTextObj := RecordText
abbrev SearchResultObj := SearchResult

def NewsEntry.from_obj : NewsEntryObj → NewsEntry := id
def NewsEntry.asdict : NewsEntry → NewsEntryObj := id
def FImage.from_obj : ImageObj → FImage := id
def FImage.asdict : FImage → ImageObj := id
def ImageDescription.from_obj : ImageDescriptionObj → ImageDescription := id
def ImageDescription.asdict : ImageDescription → ImageDescriptionObj := id
def Record.from_obj : RecordObj → Record := id
def Record.asdict : Record → RecordObj := id
def Chapter.from_obj : ChapterObj → Chapter := id
def Chapter.asdict : Chapter → ChapterObj := id

/-- `RecordText.from_obj(title, obj)`: rebuilds a record text from a separately
supplied title and the serialized object (modelled from the spec). -/
def RecordText.from_obj (title : String) (o : RecordTextObj) : RecordText :=
  { title := title, lines := o.lines }

def RecordText.asdict : RecordText → RecordTextObj := id

def SearchResult.from_obj : SearchResultObj → SearchResult := id
def SearchResult.asdict : SearchResult → SearchResultObj := id

/-! ## Timestamps on disk and load residue

A serialized timestamp is a float; `datetime.fromtimestamp` accepts it
(`TsVal.valid`, carrying the instant) or raises `ValueError` on an
out-of-range value (`TsVal.invalid`). -/

inductive TsVal where
  | valid (t : Time)
  | invalid
deriving DecidableEq, Repr

/-- A key of the persisted purge-record map: a string that parses as a
`CacheTypes` value (`CacheTypes(i)` succeeds) or one that does not
(`CacheTypes(i)` raises `ValueError`).  The real file stores the enum's string
value; the enum/string bijection is abstracted into the `enumStr` case. -/
inductive PurgeDiskKey where
  | enumStr (c : CacheTypes)
  | badStr (k : List Char)
deriving DecidableEq, Repr

/-- A key of the in-memory `__last_cache_purge` dict.  In normal operation all
keys are enum members; a metadata load that fails midway leaves the raw
string-keyed dict assigned (source lines 1036-1038), so string keys can occur.
An enum member never equals a string as a dict key. -/
inductive PgKey where
  | enum (c : CacheTypes)
  | rawStr (k : PurgeDiskKey)
deriving DecidableEq, Repr

/-- A value of `__last_cache_purge` (and of the two singleton markers): a
`datetime` in normal operation, or a raw not-yet-converted float left behind
by a metadata load that failed between the raw assignment and the
`fromtimestamp` conversion. -/
inductive PgVal where
  | dtime (t : Time)
  | rawTs (v : TsVal)
deriving DecidableEq, Repr

/-! ## The in-memory state of `FractalthornsAPI` -/

/-- The mutable cache fields of a `FractalthornsAPI` instance (source lines
118-144).  Search-result keys are `(term, type)` pairs of Python strings
(the `Literal` annotation is a plain `str` at runtime), modelled as character
lists because persistence joins and re-splits them on `"|"`. -/
structure FTState where
  cached_news_items : Option (List NewsEntry × Time)
  cached_images : PyDict (Option String) (FImage × Time)
  cached_image_contents : PyDict (Option String) ((ImageBin × ImageBin) × Time)
  cached_image_descriptions : PyDict String (ImageDescription × Time)
  cached_chapters : Option (PyDict String Chapter × Time)
  cached_records : PyDict String (Record × Time)
  cached_record_contents : PyDict String (RecordText × Time)
  cached_search_results : PyDict (List Char × List Char) (List SearchResult × Time)
  cached_full_record_contents : Option (PyDict String RecordText × Time)
  full_record_contents_set : Bool
  last_all_images_cache : Option PgVal
  last_full_episodic_cache : Option PgVal
  last_cache_purge : PyDict PgKey PgVal
deriving DecidableEq, Repr

/-- The field values established by `__init__` (source lines 118-144), before
`__load_all_cache` runs.  `full_record_contents_set` tracks whether the stray
attribute `self.__full_record_contents` (assigned only by the
`FULL_RECORD_CONTENTS` arm of `purge_cache`, source line 263, and never read
anywhere) exists yet. -/
def initState : FTState where
  cached_news_items := none
  cached_images := []
  cached_image_contents := []
  cached_image_descriptions := []
  cached_chapters := none
  cached_records := []
  cached_record_contents := []
  cached_search_results := []
  cached_full_record_contents := none
  full_record_contents_set := false
  last_all_images_cache := none
  last_full_episodic_cache := none
  last_cache_purge := []

/-! ## Errors -/

/-- `FractalthornsAPI.InvalidPurgeReasons`. -/
inductive PurgeReason where
  | cachePurge
  | invalidCache
deriving DecidableEq, Repr

/-- The exceptions the translated code can raise: the repository's
`CachePurgeError` (optionally carrying the retry-after timestamp) and
`CacheFetchError`, plus the Python builtins the code can run into. -/
inductive PyError where
  | cachePurgeError (reason : PurgeReason) (allowedAt : Option Time)
  | cacheFetchError
  | runtimeError
  | typeError
  | keyError
  | attributeError
  | stopIteration
deriving DecidableEq, Repr

/-! ## Purge controller (`purge_cache`, source lines 217-268) -/

/-- `purge_cache(cache, force_purge=...)`.  `now_check` is the
`datetime.now(dt.UTC)` taken in the cooldown test (line 235); `now_record` the
one recorded into `__last_cache_purge` (line 268).  A raw load-residue value in
the purge dict makes the `last + cooldown` addition raise `TypeError`; a
missing cooldown entry raises `KeyError` (neither is reachable in normal
operation). -/
def purge_cache (s : FTState) (cache : CacheTypes) (force_purge : Bool)
    (now_check now_record : Time) : Except PyError FTState := do
  if force_purge = false then
    match pyGet? s.last_cache_purge (PgKey.enum cache) with
    | none => pure ()
    | some last =>
        match CACHE_PURGE_COOLDOWN cache with
        | none => throw .keyError
        | some cd =>
            match last with
            | .rawTs _ => throw .typeError
            | .dtime t =>
                if now_check < t + cd then
                  throw (.cachePurgeError .cachePurge (some (t + cd)))
                else pure ()
  let s' ← match cache with
    | .newsItems => pure { s with cached_news_items := none }
    | .images => pure { s with cached_images := [], last_all_images_cache := none }
    | .imageContents => pure { s with cached_image_contents := [] }
    | .imageDescriptions => pure { s with cached_image_descriptions := [] }
    | .chapters => pure { s with cached_chapters := none, last_full_episodic_cache := none }
    | .records => pure { s with cached_records := [] }
    | .recordContents => pure { s with cached_record_contents := [] }
    | .searchResults => pure { s with cached_search_results := [] }
    | .fullRecordContents =>
        -- source line 263 assigns `self.__full_record_contents = None`: a fresh
        -- attribute; `self.__cached_full_record_contents` is left untouched
        pure { s with full_record_contents_set := true }
    | .cacheMetadata => throw (.cachePurgeError .invalidCache none)
  pure { s' with
    last_cache_purge := pyUpdate s'.last_cache_purge (PgKey.enum cache) (PgVal.dtime now_record) }

/-! ## Cache introspection (`get_cached_items`, source lines 270-404) -/

/-- The union return type of `get_cached_items` (one case per domain, plus
`None`): the stored values annotated with `(cached_at, expires_at)`. -/
inductive CachedItems where
  | nothing
  | news (items : List NewsEntry) (cachedAt expiresAt : Time)
  | images (m : PyDict (Option String) (FImage × Time × Time))
  | imageContents (m : PyDict (Option String) ((ImageBin × ImageBin) × Time × Time))
  | imageDescriptions (m : PyDict String (ImageDescription × Time × Time))
  | chapters (m : PyDict String Chapter) (cachedAt expiresAt : Time)
  | records (m : PyDict String (Record × Time × Time))
  | recordContents (m : PyDict String (RecordText × Time × Time))
  | searchResults (m : PyDict (List Char × List Char) (List SearchResult × Time × Time))
  | metadata (lastAllImages lastFullEpisodic : Time × Time)
      (lastPurge : PyDict CacheTypes (Time × Time))
deriving DecidableEq, Repr

/-- The dict-domain tail of `get_cached_items` (source lines 398-402): iterate
over the (deep-copied) dict's items; a stale entry is `pop`ped from the dict
*while it is being iterated*, so the iterator's next step raises
`RuntimeError: dictionary changed size during iteration`; a fresh entry is
annotated with its expiry time. -/
def listFreshLoop {κ α : Type} (dur : Time) (ignore_stale : Bool) (now : Time) :
    List (κ × α × Time) → Except PyError (List (κ × α × Time × Time))
  | [] => .ok []
  | (i, v, t) :: rest =>
      if ignore_stale = false ∧ t + dur < now then
        .error .runtimeError
      else
        (listFreshLoop dur ignore_stale now rest).map (fun r => (i, v, t, t + dur) :: r)

/-- The tuple-domain tail of `get_cached_items` (source lines 381-388): a stale
singleton entry yields `None` unless `ignore_stale`; otherwise the expiry time
is appended. -/
def tupleFresh (dur : Time) (ignore_stale : Bool) (now : Time) (t : Time) :
    Option (Time × Time) :=
  if ignore_stale = false ∧ t + dur < now then none else some (t, t + dur)

/-- The `last_cache_purge` comprehension of the metadata branch (source lines
368-371): each entry is mapped to `(purge_time, purge_time + cooldown)`.  The
cooldown dict lookup is evaluated before the addition, so a key without a
cooldown entry raises `KeyError` first; a raw load-residue value then makes
the addition raise `TypeError`. -/
def metaPurgeView : PyDict PgKey PgVal → Except PyError (List (CacheTypes × Time × Time))
  | [] => .ok []
  | (i, j) :: rest =>
      match i with
      | .rawStr _ => .error .keyError
      | .enum c =>
          match CACHE_PURGE_COOLDOWN c with
          | none => .error .keyError
          | some cd =>
              match j with
              | .rawTs _ => .error .typeError
              | .dtime t => (metaPurgeView rest).map (fun r => (c, t, t + cd) :: r)

/-- A singleton fetch marker plus a duration (`marker + CACHE_DURATION[...]`,
source lines 360-361 and 365-366): `None + timedelta` and
`float + timedelta` both raise `TypeError`. -/
def markerPlus (marker : Option PgVal) (dur : Time) : Except PyError (Time × Time) :=
  match marker with
  | none => .error .typeError
  | some (.rawTs _) => .error .typeError
  | some (.dtime t) => .ok (t, t + dur)

/-- A `__CACHE_DURATION[cache]` dict access: `KeyError` if the key is absent. -/
def lookupDur (c : CacheTypes) : Except PyError Time :=
  match CACHE_DURATION c with
  | some d => .ok d
  | none => .error .keyError

/-- `get_cached_items(cache, ignore_stale=...)` (source lines 270-404).  Each
branch deep-copies its table (the embedding is pure, so the copy is implicit;
in particular the underlying tables are never mutated), then the shared tail
filters stale entries: singleton domains collapse to `None`, dict domains run
the pop-while-iterating loop (`listFreshLoop`), the metadata domain is
returned unfiltered.  An unknown domain raises `CacheFetchError`. -/
def get_cached_items (s : FTState) (cache : CacheTypes) (ignore_stale : Bool)
    (now : Time) : Except PyError CachedItems := do
  match cache with
  | .newsItems =>
      match s.cached_news_items with
      | none => pure .nothing
      | some (items, t) => do
          let dur ← lookupDur .newsItems
          match tupleFresh dur ignore_stale now t with
          | none => pure .nothing
          | some (c, e) => pure (.news items c e)
  | .images => do
      let dur ← lookupDur .images
      let m ← listFreshLoop dur ignore_stale now s.cached_images
      pure (.images m)
  | .imageContents => do
      let dur ← lookupDur .imageContents
      let m ← listFreshLoop dur ignore_stale now s.cached_image_contents
      pure (.imageContents m)
  | .imageDescriptions => do
      let dur ← lookupDur .imageDescriptions
      let m ← listFreshLoop dur ignore_stale now s.cached_image_descriptions
      pure (.imageDescriptions m)
  | .chapters =>
      match s.cached_chapters with
      | none => pure .nothing
      | some (m, t) => do
          let dur ← lookupDur .chapters
          match tupleFresh dur ignore_stale now t with
          | none => pure .nothing
          | some (c, e) => pure (.chapters m c e)
  | .records => do
      let dur ← lookupDur .records
      let m ← listFreshLoop dur ignore_stale now s.cached_records
      pure (.records m)
  | .recordContents => do
      let dur ← lookupDur .recordContents
      let m ← listFreshLoop dur ignore_stale now s.cached_record_contents
      pure (.recordContents m)
  | .searchResults => do
      let dur ← lookupDur .searchResults
      let m ← listFreshLoop dur ignore_stale now s.cached_search_results
      pure (.searchResults m)
  | .cacheMetadata => do
      let durImages ← lookupDur .images
      let ai ← markerPlus s.last_all_images_cache durImages
      let durChapters ← lookupDur .chapters
      let fe ← markerPlus s.last_full_episodic_cache durChapters
      let purge ← metaPurgeView s.last_cache_purge
      pure (.metadata ai fe (pyFromList purge))
  | .fullRecordContents =>
      -- not a case of the source `match`: falls into `case _`
      throw .cacheFetchError

/-! ## Fetch orchestration with cross-domain effects
(`__get_all_images`, source lines 683-722; `__get_full_episodic`, 724-770)

The network request and response parsing are inputs here (the parsed JSON
body).  `__save_cache` calls inside these flows write to disk only and do not
change the in-memory tables; the disk side is modelled separately by
`save_cache` below. -/

def base_url : String := "https://fractalthorns.com"

/-- The refresh test `marker is None or now > marker + CACHE_DURATION[...]`
(source lines 691-695 / 734-738); a raw load-residue marker makes the addition
raise `TypeError`. -/
def markerIsStale (marker : Option PgVal) (dur now : Time) : Except PyError Bool :=
  match marker with
  | none => .ok true
  | some (.rawTs _) => .error .typeError
  | some (.dtime t) => .ok (decide (t + dur < now))

/-- URL absolutization applied to each image object (source lines 708-709). -/
def rewriteUrls (o : ImageObj) : ImageObj :=
  { o with image_url := base_url ++ o.image_url, thumb_url := base_url ++ o.thumb_url }

/-- `[j[0] for i, j in self.__cached_images.items() if i is not None]`
(source line 722). -/
def namedImages (m : PyDict (Option String) (FImage × Time)) : List FImage :=
  (m.filter (fun kv => kv.1.isSome)).map (fun kv => kv.2.1)

/-- `__get_all_images`: on the refresh path, force-purges the images domain,
repopulates one entry per returned image (URLs rewritten), then duplicates the
first dict value under the `None` sentinel key (`next(iter(values))` raises
`StopIteration` on an empty dict) and sets the all-images marker.  `now` is
the staleness-check clock (line 693), `cache_time` the single timestamp taken
after the response (line 703), `purge_now` the clock of the forced purge's
record (line 268). -/
def get_all_images (s : FTState) (resp_images : List ImageObj)
    (now cache_time purge_now : Time) : Except PyError (FTState × List FImage) := do
  let dur ← lookupDur .images
  let stale ← markerIsStale s.last_all_images_cache dur now
  if stale then
    let s1 ← purge_cache s .images true purge_now purge_now
    let newImages := resp_images.foldl (fun m o =>
      let o' := rewriteUrls o
      pyUpdate m (some o'.name) (FImage.from_obj o', cache_time)) s1.cached_images
    let s2 := { s1 with cached_images := newImages }
    match pyValues s2.cached_images with
    | [] => throw .stopIteration
    | v :: _ =>
        let s3 := { s2 with cached_images := pyUpdate s2.cached_images none v }
        let s4 := { s3 with last_all_images_cache := some (.dtime cache_time) }
        pure (s4, namedImages s4.cached_images)
  else
    pure (s, namedImages s.cached_images)

/-- `__get_full_episodic`: on the refresh path, force-purges the chapters and
records domains (purge clocks `purge_now1`, `purge_now2`), stores the chapter
dict with the single `cache_time` timestamp (line 746), then inserts every
solved record nested in the returned chapters into the records domain with
that same timestamp, and sets the full-episodic marker. -/
def get_full_episodic (s : FTState) (resp_chapters : List ChapterObj)
    (now cache_time purge_now1 purge_now2 : Time) :
    Except PyError (FTState × List Chapter) := do
  let dur ← lookupDur .chapters
  let stale ← markerIsStale s.last_full_episodic_cache dur now
  if stale then
    let s1 ← purge_cache s .chapters true purge_now1 purge_now1
    let s2 ← purge_cache s1 .records true purge_now2 purge_now2
    let chapters := pyFromList (resp_chapters.map (fun c => (c.name, Chapter.from_obj c)))
    let s3 := { s2 with cached_chapters := some (chapters, cache_time) }
    let newRecords := (pyValues chapters).foldl (fun m ch =>
      ch.records.foldl (fun m2 r =>
        if r.solved then pyUpdate m2 r.name (r, cache_time) else m2) m)
      s3.cached_records
    let s4 := { s3 with cached_records := newRecords }
    let s5 := { s4 with last_full_episodic_cache := some (.dtime cache_time) }
    -- `return list(self.__cached_chapters[0].values())`: the attribute was just
    -- assigned `(chapters, cache_time)`
    pure (s5, pyValues chapters)
  else
    match s.cached_chapters with
    | none => throw .typeError   -- `self.__cached_chapters[0]` subscripts `None`
    | some (m, _) => pure (s, pyValues m)

/-! ## Persistence layer: the on-disk model

One slot per file.  `FileSlot.write` implements the backup-before-overwrite
discipline (`Path.replace` to the `.bak` sibling when the file exists, then
write).  A JSON file's content is either `parsed` data or `malformed`
(anything `json.load` rejects with `JSONDecodeError`). -/

inductive FileJson (α : Type) where
  | malformed
  | parsed (a : α)
deriving DecidableEq, Repr

structure FileSlot (α : Type) where
  cur : Option α
  bak : Option α
deriving DecidableEq, Repr

def FileSlot.empty {α : Type} : FileSlot α := ⟨none, none⟩

def FileSlot.write {α : Type} (s : FileSlot α) (a : α) : FileSlot α :=
  { cur := some a, bak := if s.cur.isSome then s.cur else s.bak }

abbrev NewsFileData := List NewsEntryObj × TsVal
abbrev ImagesFileData := PyDict String (ImageObj × TsVal)
abbrev ImageDescriptionsFileData := PyDict String (ImageDescriptionObj × TsVal)
abbrev ChaptersFileData := PyDict String ChapterObj × TsVal
abbrev RecordsFileData := PyDict String (RecordObj × TsVal)
abbrev RecordContentsFileData := PyDict String (RecordTextObj × TsVal)
abbrev SearchResultsFileData := PyDict (List Char) (List SearchResultObj × TsVal)
abbrev FullRecordContentsFileData := PyDict String RecordTextObj × TsVal
abbrev MetaFileData := Option TsVal × Option TsVal × PyDict PurgeDiskKey TsVal
abbrev ImageContentsIndexData := PyDict String TsVal

/-- The files under `__apicache__/`: one JSON file per domain, the image
contents directory with its JSON index and per-entry `image_*.png` /
`thumb_*.png` pairs, and the shared cache-metadata file. -/
structure Disk where
  newsFile : FileSlot (FileJson NewsFileData)
  imagesFile : FileSlot (FileJson ImagesFileData)
  imageDescriptionsFile : FileSlot (FileJson ImageDescriptionsFileData)
  chaptersFile : FileSlot (FileJson ChaptersFileData)
  recordsFile : FileSlot (FileJson RecordsFileData)
  recordContentsFile : FileSlot (FileJson RecordContentsFileData)
  searchResultsFile : FileSlot (FileJson SearchResultsFileData)
  fullRecordContentsFile : FileSlot (FileJson FullRecordContentsFileData)
  cacheMetadataFile : FileSlot (FileJson MetaFileData)
  imageContentsDir : Bool
  imageContentsIndexFile : FileSlot (FileJson ImageContentsIndexData)
  imageFiles : PyDict String (FileSlot ImageBin)
  thumbFiles : PyDict String (FileSlot ImageBin)
deriving DecidableEq, Repr

/-- The empty `__apicache__` directory. -/
def emptyDisk : Disk where
  newsFile := .empty
  imagesFile := .empty
  imageDescriptionsFile := .empty
  chaptersFile := .empty
  recordsFile := .empty
  recordContentsFile := .empty
  searchResultsFile := .empty
  fullRecordContentsFile := .empty
  cacheMetadataFile := .empty
  imageContentsDir := false
  imageContentsIndexFile := .empty
  imageFiles := []
  thumbFiles := []

/-- The `"__None__"` filename/key substitution for the `None` sentinel key
(source lines 1071-1072 and 1114). -/
def encodeNoneKey : Option String → String
  | none => "__None__"
  | some n => n

/-- The inverse substitution applied on load (source lines 935-937 and 968):
the literal string `"__None__"` becomes the `None` key. -/
def decodeNoneKey (i : String) : Option String :=
  if i = "__None__" then none else some i

/-! ## Saving (`__save_cache`, source lines 1061-1183) -/

/-- `marker.timestamp()` guarded by `is not None` (source lines 1158-1169): an
absent marker is omitted from the file; a raw load-residue float has no
`timestamp` attribute, so it raises `AttributeError`. -/
def markerTimestamp : Option PgVal → Except PyError (Option TsVal)
  | none => .ok none
  | some (.dtime t) => .ok (some (.valid t))
  | some (.rawTs _) => .error .attributeError

/-- `{i.value: j.timestamp() for i, j in self.__last_cache_purge.items()}`
(source lines 1172-1175): a raw string key has no `.value` and a raw float
value has no `.timestamp()`, each an `AttributeError` (key first). -/
def purgeMapJson : PyDict PgKey PgVal → Except PyError (List (PurgeDiskKey × TsVal))
  | [] => .ok []
  | (i, j) :: rest =>
      match i with
      | .rawStr _ => .error .attributeError
      | .enum c =>
          match j with
          | .rawTs _ => .error .attributeError
          | .dtime t =>
              (purgeMapJson rest).map (fun r => (PurgeDiskKey.enumStr c, TsVal.valid t) :: r)

/-- The `CACHE_METADATA` branch of the save `match` (source lines 1156-1177). -/
def buildMetaJson (s : FTState) : Except PyError MetaFileData := do
  let ai ← markerTimestamp s.last_all_images_cache
  let fe ← markerTimestamp s.last_full_episodic_cache
  let pm ← purgeMapJson s.last_cache_purge
  pure (ai, fe, pyFromList pm)

/-- Writing the cache-metadata file (the recursive
`__save_cache(CACHE_METADATA)` call, source lines 1182-1183, or a direct
metadata save). -/
def writeMetadata (s : FTState) (d : Disk) : Except PyError Disk :=
  (buildMetaJson s).map fun m =>
    { d with cacheMetadataFile := d.cacheMetadataFile.write (.parsed m) }

/-- Writing one named png file (backup-before-overwrite per file, source lines
1076-1082); `image.save` writes the payload bytes. -/
def pyFileWrite (files : PyDict String (FileSlot ImageBin)) (name : String)
    (content : ImageBin) : PyDict String (FileSlot ImageBin) :=
  pyUpdate files name (((pyGet? files name).getD .empty).write content)

/-- `__save_cache(cache)`.  The `IMAGE_CONTENTS` branch (source lines
1062-1092) writes a png pair per entry plus the JSON index and returns without
touching the metadata file; every other branch serializes its domain
(`TypeError` if a `None` singleton is subscripted), writes its file, and —
unless the domain is `CACHE_METADATA` itself — rewrites the cache-metadata
file (source lines 1179-1183). -/
def save_cache (s : FTState) (cache : CacheTypes) (d : Disk) : Except PyError Disk := do
  match cache with
  | .imageContents =>
      let d1 := { d with imageContentsDir := true }
      let step := fun (acc : Disk × ImageContentsIndexData)
          (kv : Option String × (ImageBin × ImageBin) × Time) =>
        let name := encodeNoneKey kv.1
        let dAcc := acc.1
        let dAcc := { dAcc with imageFiles := pyFileWrite dAcc.imageFiles name kv.2.1.1 }
        let dAcc := { dAcc with thumbFiles := pyFileWrite dAcc.thumbFiles name kv.2.1.2 }
        (dAcc, pyUpdate acc.2 name (TsVal.valid kv.2.2))
      let (d2, savedImages) := s.cached_image_contents.foldl step (d1, [])
      pure { d2 with
        imageContentsIndexFile := d2.imageContentsIndexFile.write (.parsed savedImages) }
  | .newsItems =>
      match s.cached_news_items with
      | none => throw .typeError
      | some (items, t) =>
          let content : NewsFileData := (items.map NewsEntry.asdict, .valid t)
          writeMetadata s { d with newsFile := d.newsFile.write (.parsed content) }
  | .images =>
      let content : ImagesFileData := pyFromList (s.cached_images.map fun kv =>
        (encodeNoneKey kv.1, (FImage.asdict kv.2.1, TsVal.valid kv.2.2)))
      writeMetadata s { d with imagesFile := d.imagesFile.write (.parsed content) }
  | .imageDescriptions =>
      let content : ImageDescriptionsFileData :=
        pyFromList (s.cached_image_descriptions.map fun kv =>
          (kv.1, (ImageDescription.asdict kv.2.1, TsVal.valid kv.2.2)))
      writeMetadata s
        { d with imageDescriptionsFile := d.imageDescriptionsFile.write (.parsed content) }
  | .chapters =>
      match s.cached_chapters with
      | none => throw .typeError
      | some (m, t) =>
          let content : ChaptersFileData :=
            (pyFromList (m.map fun kv => (kv.1, Chapter.asdict kv.2)), .valid t)
          writeMetadata s { d with chaptersFile := d.chaptersFile.write (.parsed content) }
  | .records =>
      let content : RecordsFileData := pyFromList (s.cached_records.map fun kv =>
        (kv.1, (Record.asdict kv.2.1, TsVal.valid kv.2.2)))
      writeMetadata s { d with recordsFile := d.recordsFile.write (.parsed content) }
  | .recordContents =>
      let content : RecordContentsFileData :=
        pyFromList (s.cached_record_contents.map fun kv =>
          (kv.1, (RecordText.asdict kv.2.1, TsVal.valid kv.2.2)))
      writeMetadata s
        { d with recordContentsFile := d.recordContentsFile.write (.parsed content) }
  | .searchResults =>
      let content : SearchResultsFileData :=
        pyFromList (s.cached_search_results.map fun kv =>
          (kv.1.1 ++ '|' :: kv.1.2, (kv.2.1.map SearchResult.asdict, TsVal.valid kv.2.2)))
      writeMetadata s
        { d with searchResultsFile := d.searchResultsFile.write (.parsed content) }
  | .fullRecordContents =>
      match s.cached_full_record_contents with
      | none => throw .typeError
      | some (m, t) =>
          let content : FullRecordContentsFileData :=
            (pyFromList (m.map fun kv => (kv.1, RecordText.asdict kv.2)), .valid t)
          writeMetadata s
            { d with fullRecordContentsFile := d.fullRecordContentsFile.write (.parsed content) }
  | .cacheMetadata => writeMetadata s d

/-! ## Loading (`__load_cache`, source lines 905-1055; `__load_all_cache`,
1057-1059)

Each loader returns the updated state and whether the domain's
`try/except (JSONDecodeError, ValueError)` handler caught a failure (and
logged it).  Only those two exception classes are caught, and they are the
ones the modelled disk shapes can produce: `JSONDecodeError` from a malformed
file, `ValueError` from `datetime.fromtimestamp` on an out-of-range value or
`CacheTypes(...)` on an unknown enum string. -/

/-- `dt.datetime.fromtimestamp(v, tz=dt.UTC)`: `none` models the raised
`ValueError`. -/
def parseTs : TsVal → Option Time
  | .valid t => some t
  | .invalid => none

/-- A `{key_f(i): (value_f(j[0]), fromtimestamp(j[1])) for i, j in ...}`
comprehension over a loaded JSON table: the first failing entry (undecodable
key or bad timestamp) aborts the whole comprehension before any assignment. -/
def parseEntries {κ κ' α β : Type} (fk : κ → Option κ') (fv : α → β) :
    List (κ × α × TsVal) → Option (List (κ' × β × Time))
  | [] => some []
  | (k, v, ts) :: rest =>
      match fk k with
      | none => none
      | some k' =>
          match parseTs ts with
          | none => none
          | some t => (parseEntries fk fv rest).map (fun r => (k', fv v, t) :: r)

/-- `i[: i.rindex("|")], i[i.rindex("|") + 1 :]`: split at the *last*
separator; `rindex` raises `ValueError` (here `none`) when it is absent. -/
def rindexSplit? (sep : Char) : List Char → Option (List Char × List Char)
  | [] => none
  | c :: rest =>
      match rindexSplit? sep rest with
      | some (a, b) => some (c :: a, b)
      | none => if c = sep then some ([], rest) else none

def load_news (s : FTState) (d : Disk) : FTState × Bool :=
  match d.newsFile.cur with
  | none => (s, false)
  | some .malformed => (s, true)
  | some (.parsed (objs, ts)) =>
      match parseTs ts with
      | none => (s, true)
      | some t => ({ s with cached_news_items := some (objs.map NewsEntry.from_obj, t) }, false)

def load_images (s : FTState) (d : Disk) : FTState × Bool :=
  match d.imagesFile.cur with
  | none => (s, false)
  | some .malformed => (s, true)
  | some (.parsed entries) =>
      match parseEntries (fun i => some (decodeNoneKey i)) FImage.from_obj entries with
      | none => (s, true)
      | some l => ({ s with cached_images := pyFromList l }, false)

def load_image_descriptions (s : FTState) (d : Disk) : FTState × Bool :=
  match d.imageDescriptionsFile.cur with
  | none => (s, false)
  | some .malformed => (s, true)
  | some (.parsed entries) =>
      match parseEntries (fun i => some i) ImageDescription.from_obj entries with
      | none => (s, true)
      | some l => ({ s with cached_image_descriptions := pyFromList l }, false)

def load_chapters (s : FTState) (d : Disk) : FTState × Bool :=
  match d.chaptersFile.cur with
  | none => (s, false)
  | some .malformed => (s, true)
  | some (.parsed (m, ts)) =>
      match parseTs ts with
      | none => (s, true)
      | some t =>
          let tbl := pyFromList (m.map fun kv => (kv.1, Chapter.from_obj kv.2))
          ({ s with cached_chapters := some (tbl, t) }, false)

def load_records (s : FTState) (d : Disk) : FTState × Bool :=
  match d.recordsFile.cur with
  | none => (s, false)
  | some .malformed => (s, true)
  | some (.parsed entries) =>
      match parseEntries (fun i => some i) Record.from_obj entries with
      | none => (s, true)
      | some l => ({ s with cached_records := pyFromList l }, false)

def load_record_contents (s : FTState) (d : Disk) : FTState × Bool :=
  match d.recordContentsFile.cur with
  | none => (s, false)
  | some .malformed => (s, true)
  | some (.parsed entries) =>
      match parseEntries (fun i => some i)
          (fun o : RecordTextObj => RecordText.from_obj o.title o) entries with
      | none => (s, true)
      | some l => ({ s with cached_record_contents := pyFromList l }, false)

def load_search_results (s : FTState) (d : Disk) : FTState × Bool :=
  match d.searchResultsFile.cur with
  | none => (s, false)
  | some .malformed => (s, true)
  | some (.parsed entries) =>
      match parseEntries (rindexSplit? '|') (List.map SearchResult.from_obj) entries with
      | none => (s, true)
      | some l => ({ s with cached_search_results := pyFromList l }, false)

def load_full_record_contents (s : FTState) (d : Disk) : FTState × Bool :=
  match d.fullRecordContentsFile.cur with
  | none => (s, false)
  | some .malformed => (s, true)
  | some (.parsed (m, ts)) =>
      match parseTs ts with
      | none => (s, true)
      | some t =>
          let tbl := pyFromList (m.map fun kv => (kv.1, RecordText.from_obj kv.2.title kv.2))
          ({ s with cached_full_record_contents := some (tbl, t) }, false)

/-- The image-contents loop (source lines 921-946): per entry, convert the
timestamp (a `ValueError` aborts the loop, but entries already inserted into
the *live* table stay), skip entries whose png pair is incomplete, otherwise
insert the byte payloads re-paired with the index timestamp. -/
def loadImageContentsLoop (d : Disk) :
    FTState → List (String × TsVal) → FTState × Bool
  | s, [] => (s, false)
  | s, (name, ts) :: rest =>
      match parseTs ts with
      | none => (s, true)
      | some t =>
          match (pyGet? d.imageFiles name).bind FileSlot.cur,
                (pyGet? d.thumbFiles name).bind FileSlot.cur with
          | some ib, some tb =>
              loadImageContentsLoop d
                { s with cached_image_contents :=
                    pyUpdate s.cached_image_contents (decodeNoneKey name) ((ib, tb), t) } rest
          | _, _ => loadImageContentsLoop d s rest

def load_image_contents (s : FTState) (d : Disk) : FTState × Bool :=
  if d.imageContentsDir = false then (s, false)
  else
    match d.imageContentsIndexFile.cur with
    | none => (s, false)
    | some .malformed => (s, true)
    | some (.parsed idx) => loadImageContentsLoop d s idx

/-- `{CacheTypes(i): fromtimestamp(j) for i, j in ...}` (source lines
1048-1051): an unknown enum string or a bad timestamp raises `ValueError`. -/
def purgeParse : List (PurgeDiskKey × TsVal) → Option (List (PgKey × PgVal))
  | [] => some []
  | (k, ts) :: rest =>
      match k with
      | .badStr _ => none
      | .enumStr c =>
          match parseTs ts with
          | none => none
          | some t => (purgeParse rest).map (fun r => (PgKey.enum c, PgVal.dtime t) :: r)

def metaConvertPurge (s : FTState) (lp : PyDict PurgeDiskKey TsVal) : FTState × Bool :=
  match purgeParse lp with
  | none => (s, true)
  | some m => ({ s with last_cache_purge := pyFromList m }, false)

def metaConvertEpisodic (s : FTState) (lf : Option TsVal)
    (lp : PyDict PurgeDiskKey TsVal) : FTState × Bool :=
  match lf with
  | none => metaConvertPurge s lp
  | some ts =>
      match parseTs ts with
      | none => (s, true)
      | some t => metaConvertPurge { s with last_full_episodic_cache := some (.dtime t) } lp

/-- The cache-metadata loader (source lines 1029-1051): the three raw values
are assigned to the fields first; the conversions then run in order, and a
`ValueError` mid-way leaves the earlier fields converted and the later ones
holding their raw values. -/
def load_cache_metadata (s : FTState) (d : Disk) : FTState × Bool :=
  match d.cacheMetadataFile.cur with
  | none => (s, false)
  | some .malformed => (s, true)
  | some (.parsed (la, lf, lp)) =>
      let s0 := { s with
        last_all_images_cache := la.map PgVal.rawTs,
        last_full_episodic_cache := lf.map PgVal.rawTs,
        last_cache_purge := lp.map (fun kv => (PgKey.rawStr kv.1, PgVal.rawTs kv.2)) }
      match la with
      | none => metaConvertEpisodic s0 lf lp
      | some ts =>
          match parseTs ts with
          | none => (s0, true)
          | some t =>
              metaConvertEpisodic { s0 with last_all_images_cache := some (.dtime t) } lf lp

/-- `__load_cache(cache)`: dispatch to the per-domain loader. -/
def load_cache (s : FTState) (d : Disk) : CacheTypes → FTState × Bool
  | .newsItems => load_news s d
  | .images => load_images s d
  | .imageContents => load_image_contents s d
  | .imageDescriptions => load_image_descriptions s d
  | .chapters => load_chapters s d
  | .records => load_records s d
  | .recordContents => load_record_contents s d
  | .searchResults => load_search_results s d
  | .fullRecordContents => load_full_record_contents s d
  | .cacheMetadata => load_cache_metadata s d

/-- `__load_all_cache`: load every domain in enum order, collecting the list
of domains whose loader caught (and logged) a failure. -/
def load_all_cache (s : FTState) (d : Disk) : FTState × List CacheTypes :=
  CacheTypes.all.foldl
    (fun acc c =>
      let r := load_cache acc.1 d c
      (r.1, acc.2 ++ if r.2 then [c] else []))
    (s, [])

/-- A chapter fixture holding one solved record. -/
def chapY : Chapter := { name := "c", records := [{ name := "r1", solved := true, title := "R1" }] }

/-- A fully populated well-formed state used to witness the round-trip. -/
def stateW : FTState where
  cached_news_items := some ([{ title := "n" }], 1)
  cached_images := [(some "a", ({ name := "a", image_url := "u", thumb_url := "v" }, 2))]
  cached_image_contents := [(some "a", (([9], [8]), 3))]
  cached_image_descriptions := [("a", ({ title := "T", description := "D" }, 4))]
  cached_chapters := some ([("c", chapY)], 5)
  cached_records := [("r", ({ name := "r", solved := true, title := "R" }, 6))]
  cached_record_contents := [("r", ({ title := "t", lines := ["l"] }, 7))]
  cached_search_results := [((['q'], ['i', 'm']), ([{ kind := "k" }], 8))]
  cached_full_record_contents := some ([("r", { title := "t", lines := ["l"] })], 9)
  full_record_contents_set := false
  last_all_images_cache := some (.dtime 10)
  last_full_episodic_cache := none
  last_cache_purge := [(.enum .images, .dtime 11)]

/-! ## Per-domain load outcomes

Derived forms of the loaders, used to state what `__load_all_cache` produces:
for each domain, the loaded field value as a function of the disk and the
field's previous (cold) value, and the failure indicator as a function of the
disk alone.  They are related to the loaders by the `load_*_eq` lemmas
below. -/

def newsFail (d : Disk) : Bool :=
  match d.newsFile.cur with
  | none => false
  | some .malformed => true
  | some (.parsed (_, ts)) => (parseTs ts).isNone

def newsVal (d : Disk) (prev : Option (List NewsEntry × Time)) :
    Option (List NewsEntry × Time) :=
  match d.newsFile.cur with
  | none => prev
  | some .malformed => prev
  | some (.parsed (objs, ts)) =>
      match parseTs ts with
      | none => prev
      | some t => some (objs.map NewsEntry.from_obj, t)

def jsonTableFail {κ κ' α β : Type} (fk : κ → Option κ') (fv : α → β)
    (cur : Option (FileJson (PyDict κ (α × TsVal)))) : Bool :=
  match cur with
  | none => false
  | some .malformed => true
  | some (.parsed entries) => (parseEntries fk fv entries).isNone

def jsonTableVal {κ κ' α β : Type} [DecidableEq κ'] (fk : κ → Option κ') (fv : α → β)
    (cur : Option (FileJson (PyDict κ (α × TsVal))))
    (prev : PyDict κ' (β × Time)) : PyDict κ' (β × Time) :=
  match cur with
  | none => prev
  | some .malformed => prev
  | some (.parsed entries) =>
      match parseEntries fk fv entries with
      | none => prev
      | some l => pyFromList l

def jsonTupleFail {κ α : Type} (cur : Option (FileJson (PyDict κ α × TsVal))) : Bool :=
  match cur with
  | none => false
  | some .malformed => true
  | some (.parsed (_, ts)) => (parseTs ts).isNone

def jsonTupleVal {κ α β : Type} [DecidableEq κ] (f : α → β)
    (cur : Option (FileJson (PyDict κ α × TsVal)))
    (prev : Option (PyDict κ β × Time)) : Option (PyDict κ β × Time) :=
  match cur with
  | none => prev
  | some .malformed => prev
  | some (.parsed (m, ts)) =>
      match parseTs ts with
      | none => prev
      | some t => some (pyFromList (m.map fun kv => (kv.1, f kv.2)), t)

def icFail : List (String × TsVal) → Bool
  | [] => false
  | (_, ts) :: rest =>
      match parseTs ts with
      | none => true
      | some _ => icFail rest

def icVal (d : Disk) :
    PyDict (Option String) ((ImageBin × ImageBin) × Time) → List (String × TsVal) →
    PyDict (Option String) ((ImageBin × ImageBin) × Time)
  | tbl, [] => tbl
  | tbl, (name, ts) :: rest =>
      match parseTs ts with
      | none => tbl
      | some t =>
          match (pyGet? d.imageFiles name).bind FileSlot.cur,
                (pyGet? d.thumbFiles name).bind FileSlot.cur with
          | some ib, some tb =>
              icVal d (pyUpdate tbl (decodeNoneKey name) ((ib, tb), t)) rest
          | _, _ => icVal d tbl rest

def imageContentsFail (d : Disk) : Bool :=
  if d.imageContentsDir = false then false
  else
    match d.imageContentsIndexFile.cur with
    | none => false
    | some .malformed => true
    | some (.parsed idx) => icFail idx

def imageContentsVal (d : Disk)
    (prev : PyDict (Option String) ((ImageBin × ImageBin) × Time)) :
    PyDict (Option String) ((ImageBin × ImageBin) × Time) :=
  if d.imageContentsDir = false then prev
  else
    match d.imageContentsIndexFile.cur with
    | none => prev
    | some .malformed => prev
    | some (.parsed idx) => icVal d prev idx

/-- Whether converting one raw marker value raises `ValueError`. -/
def markerFailed : Option TsVal → Bool
  | none => false
  | some ts => (parseTs ts).isNone

/-- The value a raw marker converts to: `None` stays, a good float becomes a
datetime, a bad one is left as the raw residue. -/
def convMarker : Option TsVal → Option PgVal
  | none => none
  | some ts =>
      match parseTs ts with
      | none => some (.rawTs ts)
      | some t => some (.dtime t)

/-- The raw string-keyed purge dict as assigned before conversion. -/
def rawPurge (lp : PyDict PurgeDiskKey TsVal) : PyDict PgKey PgVal :=
  lp.map (fun kv => (PgKey.rawStr kv.1, PgVal.rawTs kv.2))

def metaFail (d : Disk) : Bool :=
  match d.cacheMetadataFile.cur with
  | none => false
  | some .malformed => true
  | some (.parsed (la, lf, lp)) =>
      markerFailed la || markerFailed lf || (purgeParse lp).isNone

def metaAIVal (d : Disk) (prev : Option PgVal) : Option PgVal :=
  match d.cacheMetadataFile.cur with
  | none => prev
  | some .malformed => prev
  | some (.parsed (la, _, _)) => convMarker la

def metaFEVal (d : Disk) (prev : Option PgVal) : Option PgVal :=
  match d.cacheMetadataFile.cur with
  | none => prev
  | some .malformed => prev
  | some (.parsed (la, lf, _)) =>
      if markerFailed la then lf.map PgVal.rawTs else convMarker lf

def metaPurgeVal (d : Disk) (prev : PyDict PgKey PgVal) : PyDict PgKey PgVal :=
  match d.cacheMetadataFile.cur with
  | none => prev
  | some .malformed => prev
  | some (.parsed (la, lf, lp)) =>
      if markerFailed la then rawPurge lp
      else if markerFailed lf then rawPurge lp
      else
        match purgeParse lp with
        | none => rawPurge lp
        | some m => pyFromList m

/-- The failure indicator of each domain's loader: a function of the disk
alone. -/
def cacheFail (d : Disk) : CacheTypes → Bool
  | .newsItems => newsFail d
  | .images => jsonTableFail (fun i => some (decodeNoneKey i)) FImage.from_obj d.imagesFile.cur
  | .imageContents => imageContentsFail d
  | .imageDescriptions =>
      jsonTableFail (fun i => some i) ImageDescription.from_obj d.imageDescriptionsFile.cur
  | .chapters => jsonTupleFail d.chaptersFile.cur
  | .records => jsonTableFail (fun i => some i) Record.from_obj d.recordsFile.cur
  | .recordContents => jsonTableFail (fun i => some i)
      (fun o : RecordTextObj => RecordText.from_obj o.title o) d.recordContentsFile.cur
  | .searchResults => jsonTableFail (rindexSplit? '|')
      (List.map SearchResult.from_obj) d.searchResultsFile.cur
  | .fullRecordContents => jsonTupleFail d.fullRecordContentsFile.cur
  | .cacheMetadata => metaFail d

/-- The state `__load_all_cache` produces from a fresh instance: each domain's
table is its own loader's outcome from the cold value, independent of every
other domain's file. -/
def loadedState (d : Disk) : FTState where
  cached_news_items := newsVal d none
  cached_images :=
    jsonTableVal (fun i => some (decodeNoneKey i)) FImage.from_obj d.imagesFile.cur []
  cached_image_contents := imageContentsVal d []
  cached_image_descriptions :=
    jsonTableVal (fun i => some i) ImageDescription.from_obj d.imageDescriptionsFile.cur []
  cached_chapters := jsonTupleVal Chapter.from_obj d.chaptersFile.cur none
  cached_records := jsonTableVal (fun i => some i) Record.from_obj d.recordsFile.cur []
  cached_record_contents := jsonTableVal (fun i => some i)
      (fun o : RecordTextObj => RecordText.from_obj o.title o) d.recordContentsFile.cur []
  cached_search_results := jsonTableVal (rindexSplit? '|')
      (List.map SearchResult.from_obj) d.searchResultsFile.cur []
  cached_full_record_contents := jsonTupleVal
      (fun o : RecordTextObj => RecordText.from_obj o.title o) d.fullRecordContentsFile.cur none
  full_record_contents_set := false
  last_all_images_cache := metaAIVal d none
  last_full_episodic_cache := metaFEVal d none
  last_cache_purge := metaPurgeVal d []

/-! ## Well-formedness of the metadata fields

In normal operation the two markers are `None` or datetimes and every purge
record is an enum key with a datetime value; only a partially failed metadata
load (see above) can leave raw residue, which would make a subsequent save
raise `AttributeError`. -/

def properMarker : Option PgVal → Bool
  | none => true
  | some (.dtime _) => true
  | some (.rawTs _) => false

def properPurgeMap : PyDict PgKey PgVal → Bool
  | [] => true
  | (.enum _, .dtime _) :: rest => properPurgeMap rest
  | _ => false

/-- Saving every persistable domain in turn (each is a `save(D)` of the
contract; the claim quantifies over the domains, so a test fixture saving all
of them exercises each). -/
def saveAll (s : FTState) (d : Disk) : Except PyError Disk := do
  let d ← save_cache s .newsItems d
  let d ← save_cache s .images d
  let d ← save_cache s .imageContents d
  let d ← save_cache s .imageDescriptions d
  let d ← save_cache s .chapters d
  let d ← save_cache s .records d
  let d ← save_cache s .recordContents d
  let d ← save_cache s .searchResults d
  let d ← save_cache s .fullRecordContents d
  pure d

/-- The disk produced by saving every domain of `s` (singleton contents
`nw`/`ch`/`fr`, metadata serialization `m0`) onto `d0`, in `saveAll` order:
each domain file written once, the metadata file rewritten by each of the
eight non-image-contents saves. -/
def savedDisk (s : FTState) (d0 : Disk) (m0 : MetaFileData)
    (nw : List NewsEntry × Time) (ch : PyDict String Chapter × Time)
    (fr : PyDict String RecordText × Time) : Disk where
  newsFile := d0.newsFile.write (.parsed (nw.1.map NewsEntry.asdict, TsVal.valid nw.2))
  imagesFile := d0.imagesFile.write (.parsed (pyFromList (s.cached_images.map fun kv => (encodeNoneKey kv.1, (FImage.asdict kv.2.1, TsVal.valid kv.2.2)))))
  imageDescriptionsFile := d0.imageDescriptionsFile.write (.parsed (pyFromList (s.cached_image_descriptions.map fun kv => (kv.1, (ImageDescription.asdict kv.2.1, TsVal.valid kv.2.2)))))
  chaptersFile := d0.chaptersFile.write (.parsed (pyFromList (ch.1.map fun kv => (kv.1, Chapter.asdict kv.2)), TsVal.valid ch.2))
  recordsFile := d0.recordsFile.write (.parsed (pyFromList (s.cached_records.map fun kv => (kv.1, (Record.asdict kv.2.1, TsVal.valid kv.2.2)))))
  recordContentsFile := d0.recordContentsFile.write (.parsed (pyFromList (s.cached_record_contents.map fun kv => (kv.1, (RecordText.asdict kv.2.1, TsVal.valid kv.2.2)))))
  searchResultsFile := d0.searchResultsFile.write (.parsed (pyFromList (s.cached_search_results.map fun kv => (kv.1.1 ++ '|' :: kv.1.2, (kv.2.1.map SearchResult.asdict, TsVal.valid kv.2.2)))))
  fullRecordContentsFile := d0.fullRecordContentsFile.write (.parsed (pyFromList (fr.1.map fun kv => (kv.1, RecordText.asdict kv.2)), TsVal.valid fr.2))
  cacheMetadataFile := ((((((((d0.cacheMetadataFile.write (.parsed m0)).write (.parsed m0)).write (.parsed m0)).write (.parsed m0)).write (.parsed m0)).write (.parsed m0)).write (.parsed m0)).write (.parsed m0))
  imageContentsDir := true
  imageContentsIndexFile := d0.imageContentsIndexFile.write (.parsed (s.cached_image_contents.foldl (fun a kv => pyUpdate a (encodeNoneKey kv.1) (TsVal.valid kv.2.2)) []))
  imageFiles := s.cached_image_contents.foldl (fun fs kv => pyFileWrite fs (encodeNoneKey kv.1) kv.2.1.1) d0.imageFiles
  thumbFiles := s.cached_image_contents.foldl (fun fs kv => pyFileWrite fs (encodeNoneKey kv.1) kv.2.1.2) d0.thumbFiles

/-! ## Concrete fixtures used by witnesses and counterexamples -/

def imgX : FImage := { name := "x", image_url := "u", thumb_url := "v" }

def rtX : RecordText := { title := "t", lines := ["l"] }

/-- A state whose images table holds a single entry cached at time 0. -/
def stateC1 : FTState := { initState with cached_images := [(some "x", (imgX, 0))] }

/-- A state with a non-empty full-record-contents table cached at time 3. -/
def stateC2 : FTState :=
  { initState with cached_full_record_contents := some ([("r", rtX)], 3) }

/-- A state whose images domain was last purged at time 0. -/
def stateC3 : FTState :=
  { initState with last_cache_purge := [(.enum .images, .dtime 0)] }

/-- A state whose images table holds an entry under the literal key
`"__None__"` (the reserved on-disk sentinel for the `None` key). -/
def stateC4 : FTState :=
  { initState with cached_images := [(some "__None__", (imgX, 0))] }

/-- An image-contents snapshot whose index holds a good first entry and a bad
timestamp on the second, with both png pairs present. -/
def diskC5 : Disk :=
  { emptyDisk with
    imageContentsDir := true
    imageContentsIndexFile := ⟨some (.parsed [("a", .valid 1), ("b", .invalid)]), none⟩
    imageFiles := [("a", ⟨some [1], none⟩), ("b", ⟨some [2], none⟩)]
    thumbFiles := [("a", ⟨some [3], none⟩), ("b", ⟨some [4], none⟩)] }

def ioA : ImageObj := { name := "a", image_url := "/1", thumb_url := "/t1" }

def ioB : ImageObj := { name := "b", image_url := "/2", thumb_url := "/t2" }

def recSolved : Record := { name := "r1", solved := true, title := "R1" }

def recUnsolved : Record := { name := "r2", solved := false, title := "R2" }

def chapX : ChapterObj := { name := "ch1", records := [recSolved, recUnsolved] }

/-- `diskC5` with an additionally malformed news snapshot. -/
def diskC5W : Disk := { diskC5 with newsFile := ⟨some .malformed, none⟩ }

/-- The disk produced by saving the records domain from the fresh state onto
an empty cache directory. -/
def diskC6 : Disk :=
  { emptyDisk with
    recordsFile := ⟨some (.parsed []), none⟩
    cacheMetadataFile := ⟨some (.parsed (none, none, [])), none⟩ }

/-! ## General lemmas about the dict model -/

theorem pyGet?_update_self {κ α : Type} [DecidableEq κ] (d : PyDict κ α) (k : κ) (v : α) :
    pyGet? (pyUpdate d k v) k = some v := by
  induction d with
  | nil => simp [pyUpdate, pyGet?]
  | cons hd tl ih =>
      by_cases h : k = hd.1
      · simp [pyUpdate, pyGet?, h]
      · simp [pyUpdate, pyGet?, h, ih]

theorem pyGet?_update_ne {κ α : Type} [DecidableEq κ] (d : PyDict κ α) (k k' : κ) (v : α)
    (h : k' ≠ k) : pyGet? (pyUpdate d k v) k' = pyGet? d k' := by
  induction d with
  | nil => simp [pyUpdate, pyGet?, h]
  | cons hd tl ih =>
      by_cases hk : k = hd.1
      · subst hk; simp [pyUpdate, pyGet?, h]
      · by_cases hk' : k' = hd.1 <;> simp [pyUpdate, pyGet?, hk, hk', ih]

theorem pyUpdate_of_not_mem {κ α : Type} [DecidableEq κ] (d : PyDict κ α) (k : κ) (v : α)
    (h : k ∉ pyKeys d) : pyUpdate d k v = d ++ [(k, v)] := by
  induction d with
  | nil => simp [pyUpdate]
  | cons hd tl ih =>
      simp only [pyKeys, List.map_cons, List.mem_cons] at h
      push_neg at h
      simp [pyUpdate, h.1, ih (by simpa [pyKeys] using h.2)]

theorem foldl_pyUpdate_acc {κ α : Type} [DecidableEq κ] (l : List (κ × α)) :
    ∀ acc : PyDict κ α, (pyKeys acc ++ pyKeys l).Nodup →
      l.foldl (fun d kv => pyUpdate d kv.1 kv.2) acc = acc ++ l := by
  induction l with
  | nil => intro acc _; simp
  | cons hd tl ih =>
      intro acc hnd
      simp only [List.foldl_cons]
      have hmem : hd.1 ∉ pyKeys acc := by
        intro hmem
        exact (List.disjoint_of_nodup_append hnd) hmem (by simp [pyKeys])
      rw [pyUpdate_of_not_mem acc hd.1 hd.2 hmem]
      have : (pyKeys (acc ++ [hd]) ++ pyKeys tl).Nodup := by
        simp only [pyKeys, List.map_append, List.map_cons, List.map_nil] at hnd ⊢
        simpa [List.append_assoc] using hnd
      rw [ih (acc ++ [hd]) this]
      simp

theorem pyFromList_eq_self {κ α : Type} [DecidableEq κ] (l : List (κ × α))
    (h : (pyKeys l).Nodup) : pyFromList l = l := by
  have := foldl_pyUpdate_acc l [] (by simpa [pyKeys] using h)
  simpa [pyFromList] using this

theorem foldl_pyUpdate_map {κ α β : Type} [DecidableEq κ] (l : List β)
    (fk : β → κ) (fv : β → α) (h : (l.map fk).Nodup) :
    l.foldl (fun m o => pyUpdate m (fk o) (fv o)) [] = l.map (fun o => (fk o, fv o)) := by
  have h1 : l.foldl (fun m o => pyUpdate m (fk o) (fv o)) [] =
      (l.map (fun o => (fk o, fv o))).foldl (fun d kv => pyUpdate d kv.1 kv.2) [] := by
    rw [List.foldl_map]
  rw [h1]
  exact pyFromList_eq_self _ (by simpa [pyKeys, List.map_map, Function.comp] using h)

theorem pyGet?_append_right {κ α : Type} [DecidableEq κ] (l₁ l₂ : PyDict κ α) (k : κ)
    (h : k ∉ pyKeys l₁) : pyGet? (l₁ ++ l₂) k = pyGet? l₂ k := by
  induction l₁ with
  | nil => simp
  | cons hd tl ih =>
      simp only [pyKeys, List.map_cons, List.mem_cons] at h
      push_neg at h
      simp [pyGet?, h.1, ih (by simpa [pyKeys] using h.2)]

theorem pyUpdate_ne_nil {κ α : Type} [DecidableEq κ] (d : PyDict κ α) (k : κ) (v : α) :
    pyUpdate d k v ≠ [] := by
  cases d with
  | nil => simp [pyUpdate]
  | cons hd tl =>
      simp only [pyUpdate]
      split <;> simp

theorem foldl_pyUpdate_ne_nil {κ α β : Type} [DecidableEq κ] (fk : β → κ) (fv : β → α) :
    ∀ (l : List β) (init : PyDict κ α), init ≠ [] ∨ l ≠ [] →
      l.foldl (fun m o => pyUpdate m (fk o) (fv o)) init ≠ [] := by
  intro l
  induction l with
  | nil =>
      intro init h
      simpa using h.resolve_right (by simp)
  | cons hd tl ih =>
      intro init _
      simpa using ih (pyUpdate init (fk hd) (fv hd)) (Or.inl (pyUpdate_ne_nil _ _ _))

theorem foldl_ite_eq_foldl_filter {β γ : Type} (p : β → Bool) (f : γ → β → γ) :
    ∀ (l : List β) (init : γ),
      l.foldl (fun m r => if p r then f m r else m) init = (l.filter p).foldl f init := by
  intro l
  induction l with
  | nil => intro init; simp
  | cons hd tl ih =>
      intro init
      by_cases h : p hd <;> simp [List.filter_cons, h, ih]

theorem foldl_bind_eq {β γ δ : Type} (f : γ → δ → γ) (g : β → List δ) :
    ∀ (l : List β) (init : γ),
      l.foldl (fun m ch => (g ch).foldl f m) init = (l.flatMap g).foldl f init := by
  intro l
  induction l with
  | nil => intro init; simp
  | cons hd tl ih => intro init; simp [List.flatMap_cons, List.foldl_append, ih]

/-! ## Claim theorems -/

/-- **C1.** The claim says that `get_cached_items` on a map-keyed domain with
`ignore_stale` false and at least one stale entry in the table returns the
fresh entries annotated with `(cached_at, expires_at)` and raises no error.
The code instead `pop`s the stale entry from the dict while iterating it
(source lines 398-402), so the call raises
`RuntimeError: dictionary changed size during iteration`: here the images
table holds one entry cached at time 0 with a 12-hour TTL, queried 13 hours
later.  (The underlying table is indeed not mutated — the loop runs on a deep
copy — but the call raises instead of returning the fresh view.) -/
theorem C1_stale_entry_raises_runtime_error :
    get_cached_items stateC1 .images false (hours 13) = .error .runtimeError := by
  decide

/-- **C2.** The claim says `purge_cache(FULL_RECORD_CONTENTS, force_purge=True)`
leaves the full-record-contents table empty.  The code's match arm (source
line 263) assigns `self.__full_record_contents = None` — a fresh, never-read
attribute — instead of `self.__cached_full_record_contents`, so the table
keeps its contents; only the purge record is updated. -/
theorem C2_full_record_contents_purge_leaves_table :
    (purge_cache stateC2 .fullRecordContents true 5 5).map
        (fun s => (s.cached_full_record_contents, s.full_record_contents_set,
          s.last_cache_purge))
      = .ok (some ([("r", rtX)], 3), true,
          [(.enum .fullRecordContents, .dtime 5)]) := by
  rfl

/-- **C7.** The claim says cache introspection on the metadata domain returns
the two singleton markers and the purge map in every reachable state,
including when a marker has never been set.  On the freshly initialized state
(both markers `None`) the code evaluates `None + CACHE_DURATION[...]` (source
lines 360-361), which raises `TypeError`. -/
theorem C7_metadata_introspection_fresh_state_raises :
    get_cached_items initState .cacheMetadata false 0 = .error .typeError := by
  decide

/-- **C3.** If a purge record exists for a purgeable domain `D` (one with a
cooldown entry) and `now` is before `last_purge_at + cooldown[D]`, a
non-forced `purge_cache(D)` raises `CachePurgeError` carrying exactly the
timestamp `last_purge_at + cooldown[D]`; with `force_purge` the purge always
succeeds and records the purge clock as the new `last_purge_at[D]`. -/
theorem C3_cooldown_error_and_forced_reset (s : FTState) (D : CacheTypes)
    (t cd now : Time)
    (hrec : pyGet? s.last_cache_purge (.enum D) = some (.dtime t))
    (hcd : CACHE_PURGE_COOLDOWN D = some cd)
    (hnow : now < t + cd) :
    (∀ nr, purge_cache s D false now nr
        = .error (.cachePurgeError .cachePurge (some (t + cd)))) ∧
    (∀ nc nr, ∃ s', purge_cache s D true nc nr = .ok s' ∧
        pyGet? s'.last_cache_purge (.enum D) = some (.dtime nr)) := by
  constructor
  · intro nr
    simp only [purge_cache, hrec, hcd, if_pos hnow]
    rfl
  · intro nc nr
    cases D <;> simp_all [purge_cache, CACHE_PURGE_COOLDOWN] <;>
      exact ⟨_, rfl, pyGet?_update_self _ _ _⟩

/-- Witness for C3: the images domain, purged at time 0 (cooldown one hour),
re-purged without force at `now = 100`; and force-purged at clock 8. -/
theorem C3_cooldown_witness :
    purge_cache stateC3 .images false 100 50
        = .error (.cachePurgeError .cachePurge (some 3600)) ∧
    ∃ s', purge_cache stateC3 .images true 7 8 = .ok s' ∧
        pyGet? s'.last_cache_purge (.enum .images) = some (.dtime 8) := by
  have h := C3_cooldown_error_and_forced_reset stateC3 .images 0 3600 100
    (by decide) (by decide) (by decide)
  exact ⟨by simpa using h.1 50, by simpa using h.2 7 8⟩

theorem rewriteUrls_name (o : ImageObj) : (rewriteUrls o).name = o.name := rfl

theorem exceptBind_ok {ε α β : Type} (a : α) (f : α → Except ε β) :
    (Except.ok a : Except ε α) >>= f = f a := rfl

theorem exceptBind_error {ε α β : Type} (e : ε) (f : α → Except ε β) :
    (Except.error e : Except ε α) >>= f = Except.error e := rfl

/-- Evaluation of a forced purge of the images domain. -/
theorem purge_cache_force_images (s : FTState) (nc nr : Time) :
    purge_cache s .images true nc nr = .ok
      { s with
        cached_images := []
        last_all_images_cache := none
        last_cache_purge := pyUpdate s.last_cache_purge (.enum .images) (.dtime nr) } :=
  rfl

/-- Evaluation of a forced purge of the chapters domain. -/
theorem purge_cache_force_chapters (s : FTState) (nc nr : Time) :
    purge_cache s .chapters true nc nr = .ok
      { s with
        cached_chapters := none
        last_full_episodic_cache := none
        last_cache_purge := pyUpdate s.last_cache_purge (.enum .chapters) (.dtime nr) } :=
  rfl

/-- Evaluation of a forced purge of the records domain. -/
theorem purge_cache_force_records (s : FTState) (nc nr : Time) :
    purge_cache s .records true nc nr = .ok
      { s with
        cached_records := []
        last_cache_purge := pyUpdate s.last_cache_purge (.enum .records) (.dtime nr) } :=
  rfl

/-- **C9.** An all-images fetch taking the refresh path with a non-empty
returned image list first force-purges the images domain (the table is fully
replaced, not merged) and leaves exactly one entry per returned image (URLs
absolutized) plus one entry under the `None` sentinel key whose value equals
the first returned image. -/
theorem C9_all_images_populates_with_sentinel (s : FTState) (a : ImageObj)
    (rest : List ImageObj) (now ct pn : Time)
    (hstale : markerIsStale s.last_all_images_cache (hours 12) now = .ok true)
    (hnodup : ((a :: rest).map FImage.name).Nodup) :
    ∃ s' out, get_all_images s (a :: rest) now ct pn = .ok (s', out) ∧
      s'.cached_images
        = ((a :: rest).map fun o => (some o.name, (rewriteUrls o, ct)))
            ++ [(none, (rewriteUrls a, ct))] ∧
      pyGet? s'.cached_images none = some (rewriteUrls a, ct) := by
  have hfold :
      (a :: rest).foldl (fun m o =>
          let o' := rewriteUrls o
          pyUpdate m (some o'.name) (FImage.from_obj o', ct)) []
        = (a :: rest).map fun o => (some o.name, (rewriteUrls o, ct)) := by
    have hinj : ((a :: rest).map fun o => some (rewriteUrls o).name)
        = ((a :: rest).map FImage.name).map some := by
      simp [List.map_map, Function.comp, rewriteUrls_name]
    have := foldl_pyUpdate_map (a :: rest)
      (fun o => some (rewriteUrls o).name) (fun o => (FImage.from_obj (rewriteUrls o), ct))
      (by rw [hinj]; exact hnodup.map (Option.some_injective _))
    simpa [rewriteUrls_name, FImage.from_obj] using this
  have hnone : (none : Option String)
      ∉ pyKeys ((a :: rest).map fun o => (some o.name, (rewriteUrls o, ct))) := by
    simp [pyKeys, List.map_map, Function.comp]
  have heval : get_all_images s (a :: rest) now ct pn
      = .ok ({ s with
            cached_images := ((a :: rest).map fun o => (some o.name, (rewriteUrls o, ct)))
              ++ [(none, (rewriteUrls a, ct))],
            last_all_images_cache := some (.dtime ct),
            last_cache_purge := pyUpdate s.last_cache_purge (.enum .images) (.dtime pn) },
          namedImages (((a :: rest).map fun o => (some o.name, (rewriteUrls o, ct)))
              ++ [(none, (rewriteUrls a, ct))])) := by
    simp only [get_all_images,
      show lookupDur .images = (Except.ok (hours 12) : Except PyError Time) from rfl,
      exceptBind_ok, hstale, if_true, purge_cache_force_images, hfold, pyValues,
      List.map_cons]
    rw [pyUpdate_of_not_mem _ _ _ (by simp_all [pyKeys])]
    rfl
  refine ⟨_, _, heval, rfl, ?_⟩
  rw [pyGet?_append_right _ _ _ hnone]
  rfl

/-- Witness for C9: a cold state, two images named `"a"` and `"b"`. -/
theorem C9_all_images_witness :
    ∃ s' out, get_all_images initState [ioA, ioB] 0 10 11 = .ok (s', out) ∧
      s'.cached_images
        = [(some "a", (rewriteUrls ioA, 10)), (some "b", (rewriteUrls ioB, 10)),
           (none, (rewriteUrls ioA, 10))] ∧
      pyGet? s'.cached_images none = some (rewriteUrls ioA, 10) := by
  have h := C9_all_images_populates_with_sentinel initState ioA [ioB] 0 10 11
    (by decide) (by decide)
  simpa [ioA, ioB] using h

/-- **C8.** A full-episodic fetch taking the refresh path first force-purges
the chapters and records domains and then leaves the records domain holding
exactly the solved records nested in the returned chapters, each stored with
`cached_at` equal to the single `cache_time` timestamp of the fetch. -/
theorem C8_full_episodic_populates_records (s : FTState) (resp : List ChapterObj)
    (now ct p1 p2 : Time)
    (hstale : markerIsStale s.last_full_episodic_cache (hours 12) now = .ok true)
    (hch : (resp.map Chapter.name).Nodup)
    (hrec : ((resp.flatMap fun c => c.records.filter fun r => r.solved).map
        Record.name).Nodup) :
    ∃ s' out, get_full_episodic s resp now ct p1 p2 = .ok (s', out) ∧
      s'.cached_chapters = some (resp.map (fun c => (c.name, c)), ct) ∧
      s'.cached_records
        = (resp.flatMap fun c => c.records.filter fun r => r.solved).map
            (fun r => (r.name, (r, ct))) := by
  have hchap : pyFromList (resp.map fun c => (c.name, Chapter.from_obj c))
      = resp.map fun c => (c.name, c) := by
    have hmap : (resp.map fun c => (c.name, Chapter.from_obj c))
        = resp.map fun c => (c.name, c) := by
      simp [Chapter.from_obj]
    rw [hmap]
    exact pyFromList_eq_self _ (by simpa [pyKeys, List.map_map, Function.comp] using hch)
  have hvalues : pyValues (resp.map fun c => (c.name, c)) = resp := by
    simp [pyValues, List.map_map, Function.comp_def]
  have hfold : resp.foldl (fun m ch =>
        ch.records.foldl (fun m2 r =>
          if r.solved then pyUpdate m2 r.name (r, ct) else m2) m) []
      = (resp.flatMap fun c => c.records.filter fun r => r.solved).map
          (fun r => (r.name, (r, ct))) := by
    have h1 : ∀ (m : PyDict String (Record × Time)) (ch : Chapter),
        ch.records.foldl (fun m2 r =>
          if r.solved then pyUpdate m2 r.name (r, ct) else m2) m
        = (ch.records.filter fun r => r.solved).foldl
            (fun m2 r => pyUpdate m2 r.name (r, ct)) m :=
      fun m ch => foldl_ite_eq_foldl_filter _ _ _ _
    calc resp.foldl (fun m ch =>
            ch.records.foldl (fun m2 r =>
              if r.solved then pyUpdate m2 r.name (r, ct) else m2) m) []
        = resp.foldl (fun m ch =>
            (ch.records.filter fun r => r.solved).foldl
              (fun m2 r => pyUpdate m2 r.name (r, ct)) m) [] := by
          simp only [h1]
      _ = (resp.flatMap fun c => c.records.filter fun r => r.solved).foldl
            (fun m2 r => pyUpdate m2 r.name (r, ct)) [] :=
          foldl_bind_eq _ _ _ _
      _ = (resp.flatMap fun c => c.records.filter fun r => r.solved).map
            (fun r => (r.name, (r, ct))) :=
          foldl_pyUpdate_map _ (fun r : Record => r.name) (fun r : Record => (r, ct)) hrec
  have heval : get_full_episodic s resp now ct p1 p2 = .ok
      ({ s with
          cached_chapters := some (resp.map (fun c => (c.name, c)), ct)
          cached_records := (resp.flatMap fun c => c.records.filter fun r => r.solved).map
            (fun r => (r.name, (r, ct)))
          last_full_episodic_cache := some (.dtime ct)
          last_cache_purge := pyUpdate
            (pyUpdate s.last_cache_purge (.enum .chapters) (.dtime p1))
            (.enum .records) (.dtime p2) },
        resp) := by
    simp only [get_full_episodic,
      show lookupDur .chapters = (Except.ok (hours 12) : Except PyError Time) from rfl,
      exceptBind_ok, hstale, if_true, purge_cache_force_chapters,
      purge_cache_force_records, hchap, hvalues, hfold]
    rfl
  refine ⟨_, _, heval, rfl, rfl⟩

/-- Witness for C8: one chapter with one solved and one unsolved record. -/
theorem C8_full_episodic_witness :
    ∃ s' out, get_full_episodic initState [chapX] 0 20 21 22 = .ok (s', out) ∧
      s'.cached_chapters = some ([("ch1", chapX)], 20) ∧
      s'.cached_records = [("r1", (recSolved, 20))] := by
  have h := C8_full_episodic_populates_records initState [chapX] 0 20 21 22
    (by decide) (by decide) (by decide)
  simpa [chapX, recSolved, recUnsolved] using h

/-- The refresh path of `__get_all_images`, evaluated without characterizing
the resulting table: the purge record for the images domain is set to the
purge clock. -/
theorem get_all_images_refresh_eval (s : FTState) (a : ImageObj) (rest : List ImageObj)
    (now ct pn : Time)
    (hstale : markerIsStale s.last_all_images_cache (hours 12) now = .ok true) :
    ∃ tbl, get_all_images s (a :: rest) now ct pn = .ok
      ({ s with
          cached_images := tbl
          last_all_images_cache := some (.dtime ct)
          last_cache_purge := pyUpdate s.last_cache_purge (.enum .images) (.dtime pn) },
        namedImages tbl) := by
  obtain ⟨hd, tl, hF⟩ := List.exists_cons_of_ne_nil
    (foldl_pyUpdate_ne_nil (fun o : ImageObj => some (rewriteUrls o).name)
      (fun o => (FImage.from_obj (rewriteUrls o), ct)) (a :: rest) [] (Or.inr (by simp)))
  refine ⟨pyUpdate (hd :: tl) none hd.2, ?_⟩
  simp only [get_all_images,
    show lookupDur .images = (Except.ok (hours 12) : Except PyError Time) from rfl,
    exceptBind_ok, hstale, if_true, purge_cache_force_images, hF, pyValues, List.map_cons]
  rfl

/-- The refresh path of `__get_full_episodic`, evaluated without
characterizing the tables: the purge records for the chapters and records
domains are set to the two purge clocks. -/
theorem get_full_episodic_refresh_eval (s : FTState) (resp : List ChapterObj)
    (now ct p1 p2 : Time)
    (hstale : markerIsStale s.last_full_episodic_cache (hours 12) now = .ok true) :
    ∃ tbl recs, get_full_episodic s resp now ct p1 p2 = .ok
      ({ s with
          cached_chapters := some (tbl, ct)
          cached_records := recs
          last_full_episodic_cache := some (.dtime ct)
          last_cache_purge := pyUpdate
            (pyUpdate s.last_cache_purge (.enum .chapters) (.dtime p1))
            (.enum .records) (.dtime p2) },
        pyValues tbl) := by
  refine ⟨pyFromList (resp.map fun c => (c.name, Chapter.from_obj c)),
    (pyValues (pyFromList (resp.map fun c => (c.name, Chapter.from_obj c)))).foldl
      (fun m ch => ch.records.foldl (fun m2 r =>
        if r.solved then pyUpdate m2 r.name (r, ct) else m2) m) [], ?_⟩
  simp only [get_full_episodic,
    show lookupDur .chapters = (Except.ok (hours 12) : Except PyError Time) from rfl,
    exceptBind_ok, hstale, if_true, purge_cache_force_chapters, purge_cache_force_records]
  rfl

/-- A non-forced purge while the cooldown is active, evaluated. -/
theorem purge_cache_cooldown_error (s : FTState) (D : CacheTypes) (t cd now nr : Time)
    (hrec : pyGet? s.last_cache_purge (.enum D) = some (.dtime t))
    (hcd : CACHE_PURGE_COOLDOWN D = some cd) (hnow : now < t + cd) :
    purge_cache s D false now nr
      = .error (.cachePurgeError .cachePurge (some (t + cd))) := by
  simp only [purge_cache, hrec, hcd, if_pos hnow]
  rfl

/-- **C10.** A refreshing all-images fetch records its internal force-purge in
`last_purge_at` for the images domain, and a refreshing full-episodic fetch
does the same for the chapters and records domains; consequently a non-forced
`purge_cache` of that domain issued within the domain's cooldown (one hour)
after the fetch raises the cooldown error, although the caller never purged
the domain. -/
theorem C10_internal_purge_starts_cooldown (s1 s2 : FTState) (a : ImageObj)
    (rest : List ImageObj) (respC : List ChapterObj)
    (now1 ct1 pn now2 ct2 p1 p2 t1 t2 t3 nr : Time)
    (hstale1 : markerIsStale s1.last_all_images_cache (hours 12) now1 = .ok true)
    (hstale2 : markerIsStale s2.last_full_episodic_cache (hours 12) now2 = .ok true)
    (ht1 : t1 < pn + hours 1) (ht2 : t2 < p1 + hours 1) (ht3 : t3 < p2 + hours 1) :
    (∃ s' out, get_all_images s1 (a :: rest) now1 ct1 pn = .ok (s', out) ∧
        purge_cache s' .images false t1 nr
          = .error (.cachePurgeError .cachePurge (some (pn + hours 1)))) ∧
    (∃ s' out, get_full_episodic s2 respC now2 ct2 p1 p2 = .ok (s', out) ∧
        purge_cache s' .chapters false t2 nr
          = .error (.cachePurgeError .cachePurge (some (p1 + hours 1))) ∧
        purge_cache s' .records false t3 nr
          = .error (.cachePurgeError .cachePurge (some (p2 + hours 1)))) := by
  constructor
  · obtain ⟨tbl, heval⟩ := get_all_images_refresh_eval s1 a rest now1 ct1 pn hstale1
    refine ⟨_, _, heval, ?_⟩
    exact purge_cache_cooldown_error _ .images pn (hours 1) t1 nr
      (pyGet?_update_self _ _ _) rfl ht1
  · obtain ⟨tbl, recs, heval⟩ := get_full_episodic_refresh_eval s2 respC now2 ct2 p1 p2 hstale2
    refine ⟨_, _, heval, ?_, ?_⟩
    · refine purge_cache_cooldown_error _ .chapters p1 (hours 1) t2 nr ?_ rfl ht2
      rw [pyGet?_update_ne _ _ _ _ (by decide)]
      exact pyGet?_update_self _ _ _
    · exact purge_cache_cooldown_error _ .records p2 (hours 1) t3 nr
        (pyGet?_update_self _ _ _) rfl ht3

/-- Witness for C10: cold states, one image and one chapter. -/
theorem C10_internal_purge_witness :
    (∃ s' out, get_all_images initState [ioA] 0 10 11 = .ok (s', out) ∧
        purge_cache s' .images false 1000 9999
          = .error (.cachePurgeError .cachePurge (some 3611))) ∧
    (∃ s' out, get_full_episodic initState [chapX] 0 20 21 22 = .ok (s', out) ∧
        purge_cache s' .chapters false 2000 9999
          = .error (.cachePurgeError .cachePurge (some 3621)) ∧
        purge_cache s' .records false 2002 9999
          = .error (.cachePurgeError .cachePurge (some 3622))) := by
  have h := C10_internal_purge_starts_cooldown initState initState ioA [] [chapX]
    0 10 11 0 20 21 22 1000 2000 2002 9999 (by decide) (by decide)
    (by decide) (by decide) (by decide)
  constructor
  · obtain ⟨s', out, h1, h2⟩ := h.1
    exact ⟨s', out, h1, by simpa using h2⟩
  · obtain ⟨s', out, h1, h2, h3⟩ := h.2
    refine ⟨s', out, h1, by simpa using h2, by simpa using h3⟩

/-- A successful `writeMetadata` wrote the serialized metadata into the
metadata file slot. -/
theorem writeMetadata_ok (s : FTState) (d d' : Disk)
    (h : writeMetadata s d = .ok d') :
    ∃ m, buildMetaJson s = .ok m ∧ d'.cacheMetadataFile.cur = some (.parsed m) := by
  unfold writeMetadata at h
  cases hb : buildMetaJson s with
  | error e => rw [hb] at h; simp [Except.map] at h
  | ok m =>
      rw [hb] at h
      simp only [Except.map] at h
      cases h
      exact ⟨m, rfl, rfl⟩

/-- **C6 (counterexample).** The claim says every save of a domain other than
cache metadata — including a save of the image-contents domain — rewrites the
cache-metadata file.  Saving the image-contents domain from the fresh state
onto an empty cache directory succeeds and leaves the metadata file absent:
the `IMAGE_CONTENTS` branch of `__save_cache` (source lines 1062-1092) returns
without the metadata rewrite, which lives only in the `else` branch. -/
theorem C6_image_contents_save_skips_metadata :
    (save_cache initState .imageContents emptyDisk).map
        (fun d => (d.cacheMetadataFile.cur, d.imageContentsIndexFile.cur))
      = .ok (none, some (.parsed [])) := by
  rfl

/-- **C6 (amended).** Every *successful* save of a domain other than cache
metadata and other than image contents rewrites the cache-metadata file with
the serialized pair of singleton last-full-fetch markers and the full
purge-record map; the image-contents save writes only its png files and its
own JSON index. -/
theorem C6_saves_rewrite_metadata_file (s : FTState) (c : CacheTypes) (d d' : Disk)
    (hc1 : c ≠ CacheTypes.cacheMetadata) (hc2 : c ≠ CacheTypes.imageContents)
    (hok : save_cache s c d = .ok d') :
    ∃ m, buildMetaJson s = .ok m ∧ d'.cacheMetadataFile.cur = some (.parsed m) := by
  cases c with
  | cacheMetadata => exact absurd rfl hc1
  | imageContents => exact absurd rfl hc2
  | newsItems =>
      simp only [save_cache] at hok
      cases hn : s.cached_news_items with
      | none => rw [hn] at hok; simp at hok
      | some v => rw [hn] at hok; exact writeMetadata_ok _ _ _ hok
  | images =>
      simp only [save_cache] at hok
      exact writeMetadata_ok _ _ _ hok
  | imageDescriptions =>
      simp only [save_cache] at hok
      exact writeMetadata_ok _ _ _ hok
  | chapters =>
      simp only [save_cache] at hok
      cases hn : s.cached_chapters with
      | none => rw [hn] at hok; simp at hok
      | some v => rw [hn] at hok; exact writeMetadata_ok _ _ _ hok
  | records =>
      simp only [save_cache] at hok
      exact writeMetadata_ok _ _ _ hok
  | recordContents =>
      simp only [save_cache] at hok
      exact writeMetadata_ok _ _ _ hok
  | searchResults =>
      simp only [save_cache] at hok
      exact writeMetadata_ok _ _ _ hok
  | fullRecordContents =>
      simp only [save_cache] at hok
      cases hn : s.cached_full_record_contents with
      | none => rw [hn] at hok; simp at hok
      | some v => rw [hn] at hok; exact writeMetadata_ok _ _ _ hok

/-- Witness for the amended C6: saving the records domain from the fresh
state writes the metadata file. -/
theorem C6_saves_rewrite_metadata_witness :
    save_cache initState .records emptyDisk = .ok diskC6 ∧
    ∃ m, buildMetaJson initState = .ok m ∧
      diskC6.cacheMetadataFile.cur = some (.parsed m) := by
  have h1 : save_cache initState .records emptyDisk = .ok diskC6 := by rfl
  exact ⟨h1, C6_saves_rewrite_metadata_file initState .records emptyDisk diskC6
    (by decide) (by decide) h1⟩

/-! ## Loader evaluation lemmas: each per-domain loader touches only its own
fields, with a value determined by the disk and the field's previous value,
and a failure bit determined by the disk alone. -/

theorem load_news_eq (s : FTState) (d : Disk) :
    load_news s d
      = ({ s with cached_news_items := newsVal d s.cached_news_items }, newsFail d) := by
  unfold load_news newsVal newsFail
  cases d.newsFile.cur with
  | none => rfl
  | some f =>
      cases f with
      | malformed => rfl
      | parsed p =>
          obtain ⟨objs, ts⟩ := p
          cases ts <;> rfl

theorem load_images_eq (s : FTState) (d : Disk) :
    load_images s d
      = ({ s with cached_images := jsonTableVal (fun i => some (decodeNoneKey i)) FImage.from_obj d.imagesFile.cur s.cached_images },
         jsonTableFail (fun i => some (decodeNoneKey i)) FImage.from_obj d.imagesFile.cur) := by
  unfold load_images jsonTableVal jsonTableFail
  cases d.imagesFile.cur with
  | none => rfl
  | some f =>
      cases f with
      | malformed => rfl
      | parsed entries =>
          cases h : parseEntries (fun i => some (decodeNoneKey i)) FImage.from_obj entries <;>
            simp [h]

theorem load_image_descriptions_eq (s : FTState) (d : Disk) :
    load_image_descriptions s d
      = ({ s with cached_image_descriptions := jsonTableVal (fun i => some i) ImageDescription.from_obj d.imageDescriptionsFile.cur s.cached_image_descriptions },
         jsonTableFail (fun i => some i) ImageDescription.from_obj d.imageDescriptionsFile.cur) := by
  unfold load_image_descriptions jsonTableVal jsonTableFail
  cases d.imageDescriptionsFile.cur with
  | none => rfl
  | some f =>
      cases f with
      | malformed => rfl
      | parsed entries =>
          cases h : parseEntries (fun i => some i) ImageDescription.from_obj entries <;>
            simp [h]

theorem load_chapters_eq (s : FTState) (d : Disk) :
    load_chapters s d
      = ({ s with cached_chapters := jsonTupleVal Chapter.from_obj d.chaptersFile.cur s.cached_chapters },
         jsonTupleFail d.chaptersFile.cur) := by
  unfold load_chapters jsonTupleVal jsonTupleFail
  cases d.chaptersFile.cur with
  | none => rfl
  | some f =>
      cases f with
      | malformed => rfl
      | parsed p =>
          obtain ⟨m, ts⟩ := p
          cases ts <;> rfl

theorem load_records_eq (s : FTState) (d : Disk) :
    load_records s d
      = ({ s with cached_records := jsonTableVal (fun i => some i) Record.from_obj d.recordsFile.cur s.cached_records },
         jsonTableFail (fun i => some i) Record.from_obj d.recordsFile.cur) := by
  unfold load_records jsonTableVal jsonTableFail
  cases d.recordsFile.cur with
  | none => rfl
  | some f =>
      cases f with
      | malformed => rfl
      | parsed entries =>
          cases h : parseEntries (fun i => some i) Record.from_obj entries <;> simp [h]

theorem load_record_contents_eq (s : FTState) (d : Disk) :
    load_record_contents s d
      = ({ s with cached_record_contents := jsonTableVal (fun i => some i) (fun o : RecordTextObj => RecordText.from_obj o.title o) d.recordContentsFile.cur s.cached_record_contents },
         jsonTableFail (fun i => some i) (fun o : RecordTextObj => RecordText.from_obj o.title o) d.recordContentsFile.cur) := by
  unfold load_record_contents jsonTableVal jsonTableFail
  cases d.recordContentsFile.cur with
  | none => rfl
  | some f =>
      cases f with
      | malformed => rfl
      | parsed entries =>
          cases h : parseEntries (fun i => some i)
            (fun o : RecordTextObj => RecordText.from_obj o.title o) entries <;> simp [h]

theorem load_search_results_eq (s : FTState) (d : Disk) :
    load_search_results s d
      = ({ s with cached_search_results := jsonTableVal (rindexSplit? '|') (List.map SearchResult.from_obj) d.searchResultsFile.cur s.cached_search_results },
         jsonTableFail (rindexSplit? '|') (List.map SearchResult.from_obj) d.searchResultsFile.cur) := by
  unfold load_search_results jsonTableVal jsonTableFail
  cases d.searchResultsFile.cur with
  | none => rfl
  | some f =>
      cases f with
      | malformed => rfl
      | parsed entries =>
          cases h : parseEntries (rindexSplit? '|') (List.map SearchResult.from_obj) entries <;>
            simp [h]

theorem load_full_record_contents_eq (s : FTState) (d : Disk) :
    load_full_record_contents s d
      = ({ s with cached_full_record_contents := jsonTupleVal (fun o : RecordTextObj => RecordText.from_obj o.title o) d.fullRecordContentsFile.cur s.cached_full_record_contents },
         jsonTupleFail d.fullRecordContentsFile.cur) := by
  unfold load_full_record_contents jsonTupleVal jsonTupleFail
  cases d.fullRecordContentsFile.cur with
  | none => rfl
  | some f =>
      cases f with
      | malformed => rfl
      | parsed p =>
          obtain ⟨m, ts⟩ := p
          cases ts <;> rfl

theorem loadImageContentsLoop_eq (d : Disk) :
    ∀ (idx : List (String × TsVal)) (s : FTState),
      loadImageContentsLoop d s idx
        = ({ s with cached_image_contents := icVal d s.cached_image_contents idx },
           icFail idx) := by
  intro idx
  induction idx with
  | nil => intro s; rfl
  | cons e rest ih =>
      intro s
      obtain ⟨name, ts⟩ := e
      unfold loadImageContentsLoop icVal icFail
      cases ts with
      | invalid => rfl
      | valid t =>
          cases (pyGet? d.imageFiles name).bind FileSlot.cur with
          | none => exact ih s
          | some ib =>
              cases (pyGet? d.thumbFiles name).bind FileSlot.cur with
              | none => exact ih s
              | some tb => exact ih _

theorem load_image_contents_eq (s : FTState) (d : Disk) :
    load_image_contents s d
      = ({ s with cached_image_contents := imageContentsVal d s.cached_image_contents }, imageContentsFail d) := by
  unfold load_image_contents imageContentsVal imageContentsFail
  cases d.imageContentsDir with
  | false => rfl
  | true =>
      simp only [Bool.true_eq_false, if_false]
      cases d.imageContentsIndexFile.cur with
      | none => rfl
      | some f =>
          cases f with
          | malformed => rfl
          | parsed idx => exact loadImageContentsLoop_eq d idx s

theorem load_cache_metadata_eq (s : FTState) (d : Disk) :
    load_cache_metadata s d
      = ({ s with
            last_all_images_cache := metaAIVal d s.last_all_images_cache
            last_full_episodic_cache := metaFEVal d s.last_full_episodic_cache
            last_cache_purge := metaPurgeVal d s.last_cache_purge },
         metaFail d) := by
  unfold load_cache_metadata metaAIVal metaFEVal metaPurgeVal metaFail
    metaConvertEpisodic metaConvertPurge markerFailed convMarker rawPurge
  cases d.cacheMetadataFile.cur with
  | none => rfl
  | some f =>
      cases f with
      | malformed => rfl
      | parsed p =>
          obtain ⟨la, lf, lp⟩ := p
          cases la with
          | none =>
              cases lf with
              | none => cases h : purgeParse lp <;> simp [h, parseTs]
              | some ts2 =>
                  cases ts2 with
                  | invalid => rfl
                  | valid t2 => cases h : purgeParse lp <;> simp [h, parseTs]
          | some ts =>
              cases ts with
              | invalid => rfl
              | valid t =>
                  cases lf with
                  | none => cases h : purgeParse lp <;> simp [h, parseTs]
                  | some ts2 =>
                      cases ts2 with
                      | invalid => rfl
                      | valid t2 => cases h : purgeParse lp <;> simp [h, parseTs]

/-- The state produced by `__load_all_cache` on a fresh instance. -/
theorem load_all_cache_state (d : Disk) :
    (load_all_cache initState d).1 = loadedState d := by
  simp only [load_all_cache, CacheTypes.all, List.foldl, load_cache,
    load_news_eq, load_images_eq, load_image_contents_eq, load_image_descriptions_eq,
    load_chapters_eq, load_records_eq, load_record_contents_eq, load_search_results_eq,
    load_full_record_contents_eq, load_cache_metadata_eq]
  rfl

/-- The failure bit of each domain's loader does not depend on the incoming
state. -/
theorem load_cache_fail_eq (s : FTState) (d : Disk) (c : CacheTypes) :
    (load_cache s d c).2 = cacheFail d c := by
  cases c <;> simp [load_cache, cacheFail, load_news_eq, load_images_eq,
    load_image_contents_eq, load_image_descriptions_eq, load_chapters_eq,
    load_records_eq, load_record_contents_eq, load_search_results_eq,
    load_full_record_contents_eq, load_cache_metadata_eq]

theorem load_all_cache_log_aux (d : Disk) :
    ∀ (l : List CacheTypes) (s : FTState) (acc : List CacheTypes),
      (l.foldl (fun a c =>
          let r := load_cache a.1 d c
          (r.1, a.2 ++ if r.2 then [c] else [])) (s, acc)).2
        = acc ++ l.filter (cacheFail d) := by
  intro l
  induction l with
  | nil => intro s acc; simp
  | cons c rest ih =>
      intro s acc
      simp only [List.foldl_cons, List.filter_cons]
      rw [load_cache_fail_eq s d c]
      cases hc : cacheFail d c with
      | false =>
          rw [if_neg (by simp)]
          simpa using ih ((load_cache s d c).1) acc
      | true =>
          rw [if_pos rfl, ih ((load_cache s d c).1) (acc ++ [c])]
          simp

/-- The failure log produced by `__load_all_cache` on a fresh instance: the
domains whose loaders caught (and logged) an error, in enum order. -/
theorem load_all_cache_log (d : Disk) :
    (load_all_cache initState d).2 = CacheTypes.all.filter (cacheFail d) := by
  have := load_all_cache_log_aux d CacheTypes.all initState []
  simpa [load_all_cache] using this

theorem newsVal_of_fail (d : Disk) (prev : Option (List NewsEntry × Time))
    (h : newsFail d = true) : newsVal d prev = prev := by
  unfold newsVal
  unfold newsFail at h
  cases hc : d.newsFile.cur with
  | none => simp [hc] at h
  | some f =>
      cases f with
      | malformed => simp [hc]
      | parsed p =>
          obtain ⟨objs, ts⟩ := p
          cases ts with
          | valid t => rw [hc] at h; simp [parseTs] at h
          | invalid => simp [hc, parseTs]

theorem jsonTableVal_of_fail {κ κ' α β : Type} [DecidableEq κ'] (fk : κ → Option κ')
    (fv : α → β) (cur : Option (FileJson (PyDict κ (α × TsVal))))
    (prev : PyDict κ' (β × Time))
    (h : jsonTableFail fk fv cur = true) : jsonTableVal fk fv cur prev = prev := by
  unfold jsonTableVal
  unfold jsonTableFail at h
  cases hc : cur with
  | none => simp [hc] at h
  | some f =>
      cases f with
      | malformed => simp [hc]
      | parsed entries =>
          rw [hc] at h
          simp at h
          simp [hc, h]

theorem jsonTupleVal_of_fail {κ α β : Type} [DecidableEq κ] (f : α → β)
    (cur : Option (FileJson (PyDict κ α × TsVal))) (prev : Option (PyDict κ β × Time))
    (h : jsonTupleFail cur = true) : jsonTupleVal f cur prev = prev := by
  unfold jsonTupleVal
  unfold jsonTupleFail at h
  cases hc : cur with
  | none => simp [hc] at h
  | some fj =>
      cases fj with
      | malformed => simp [hc]
      | parsed p =>
          obtain ⟨m, ts⟩ := p
          cases ts with
          | valid t => rw [hc] at h; simp [parseTs] at h
          | invalid => simp [hc, parseTs]

/-- **C5 (counterexample).** The claim says a caught load failure leaves the
failed domain's in-memory table empty.  For the image-contents domain the
loader inserts into the live table entry by entry, so a bad timestamp on the
*second* index entry (disk `diskC5`) is caught and logged, yet the first entry
stays loaded: the table is not empty after the failure. -/
theorem C5_partial_image_contents_counterexample :
    (load_cache initState diskC5 .imageContents).2 = true ∧
    (load_all_cache initState diskC5).1.cached_image_contents
      = [(some "a", (([1], [3]), 1))] := by
  exact ⟨rfl, rfl⟩

/-- **C5 (amended).** On a fresh instance, loading catches each domain's
failure (malformed JSON, bad timestamp, undecodable key) inside that domain
alone: `__load_all_cache` always completes, every domain's resulting table is
its own loader's outcome from the cold value — independent of every other
domain's file — and the log lists exactly the failed domains.  For every
domain other than image contents and cache metadata, a failure leaves the
domain's table empty (cold); the image-contents loader keeps the entries it
inserted before the failure, and a metadata failure can leave raw unconverted
values in the marker and purge-record fields. -/
theorem C5_load_failure_isolation (d : Disk) :
    load_all_cache initState d = (loadedState d, CacheTypes.all.filter (cacheFail d)) ∧
    (∀ c, (load_cache initState d c).2 = cacheFail d c) ∧
    (cacheFail d .newsItems = true → (loadedState d).cached_news_items = none) ∧
    (cacheFail d .images = true → (loadedState d).cached_images = []) ∧
    (cacheFail d .imageDescriptions = true →
      (loadedState d).cached_image_descriptions = []) ∧
    (cacheFail d .chapters = true → (loadedState d).cached_chapters = none) ∧
    (cacheFail d .records = true → (loadedState d).cached_records = []) ∧
    (cacheFail d .recordContents = true → (loadedState d).cached_record_contents = []) ∧
    (cacheFail d .searchResults = true → (loadedState d).cached_search_results = []) ∧
    (cacheFail d .fullRecordContents = true →
      (loadedState d).cached_full_record_contents = none) := by
  refine ⟨?_, load_cache_fail_eq initState d, ?_, ?_, ?_, ?_, ?_, ?_, ?_, ?_⟩
  · calc load_all_cache initState d
        = ((load_all_cache initState d).1, (load_all_cache initState d).2) := rfl
      _ = (loadedState d, CacheTypes.all.filter (cacheFail d)) := by
          rw [load_all_cache_state, load_all_cache_log]
  · exact fun h => newsVal_of_fail d none h
  · exact fun h => jsonTableVal_of_fail _ _ _ _ h
  · exact fun h => jsonTableVal_of_fail _ _ _ _ h
  · exact fun h => jsonTupleVal_of_fail _ _ _ h
  · exact fun h => jsonTableVal_of_fail _ _ _ _ h
  · exact fun h => jsonTableVal_of_fail _ _ _ _ h
  · exact fun h => jsonTableVal_of_fail _ _ _ _ h
  · exact fun h => jsonTupleVal_of_fail
      (fun o : RecordTextObj => RecordText.from_obj o.title o)
      d.fullRecordContentsFile.cur none h

/-- Witness for the amended C5: a disk with a malformed news snapshot and a
partially bad image-contents index.  Both failures are logged, the news table
is left cold, the good image-contents entry is kept, and nothing else is
affected. -/
theorem C5_load_failure_isolation_witness :
    load_all_cache initState diskC5W
      = (loadedState diskC5W, [CacheTypes.newsItems, CacheTypes.imageContents]) ∧
    (loadedState diskC5W).cached_news_items = none ∧
    (loadedState diskC5W).cached_image_contents = [(some "a", (([1], [3]), 1))] := by
  have h := C5_load_failure_isolation diskC5W
  refine ⟨?_, h.2.2.1 (by rfl), by rfl⟩
  have h1 := h.1
  rw [show CacheTypes.all.filter (cacheFail diskC5W)
      = [CacheTypes.newsItems, CacheTypes.imageContents] from rfl] at h1
  exact h1

/-! ## Save evaluation lemmas for the round-trip claim -/

theorem markerTimestamp_ok (m : Option PgVal) (h : properMarker m = true) :
    markerTimestamp m = .ok (m.map fun v => match v with
      | .dtime t => TsVal.valid t
      | .rawTs v' => v') := by
  cases m with
  | none => rfl
  | some v =>
      cases v with
      | dtime t => rfl
      | rawTs v' => simp [properMarker] at h

theorem purgeMapJson_ok (m : PyDict PgKey PgVal) (h : properPurgeMap m = true) :
    ∃ pm, purgeMapJson m = .ok pm := by
  induction m with
  | nil => exact ⟨[], rfl⟩
  | cons kv rest ih =>
      obtain ⟨k, v⟩ := kv
      cases k with
      | rawStr k' => simp [properPurgeMap] at h
      | enum c =>
          cases v with
          | rawTs v' => simp [properPurgeMap] at h
          | dtime t =>
              obtain ⟨pm, hpm⟩ := ih (by simpa [properPurgeMap] using h)
              exact ⟨(PurgeDiskKey.enumStr c, TsVal.valid t) :: pm, by
                simp [purgeMapJson, hpm, Except.map]⟩

theorem buildMetaJson_ok (s : FTState)
    (h1 : properMarker s.last_all_images_cache = true)
    (h2 : properMarker s.last_full_episodic_cache = true)
    (h3 : properPurgeMap s.last_cache_purge = true) :
    ∃ m, buildMetaJson s = .ok m := by
  obtain ⟨pm, hpm⟩ := purgeMapJson_ok s.last_cache_purge h3
  refine ⟨((s.last_all_images_cache.map fun v => match v with
      | .dtime t => TsVal.valid t | .rawTs v' => v'),
    (s.last_full_episodic_cache.map fun v => match v with
      | .dtime t => TsVal.valid t | .rawTs v' => v'),
    pyFromList pm), ?_⟩
  simp only [buildMetaJson, markerTimestamp_ok _ h1, markerTimestamp_ok _ h2,
    exceptBind_ok, hpm]
  rfl

theorem save_news_eval (s : FTState) (d : Disk) (nwItems : List NewsEntry) (nwT : Time)
    (m0 : MetaFileData) (hnw : s.cached_news_items = some (nwItems, nwT))
    (hm : buildMetaJson s = .ok m0) :
    save_cache s .newsItems d = .ok { d with
      newsFile := d.newsFile.write (.parsed (nwItems.map NewsEntry.asdict, TsVal.valid nwT))
      cacheMetadataFile := d.cacheMetadataFile.write (.parsed m0) } := by
  simp only [save_cache, hnw, writeMetadata, hm, Except.map]

theorem save_images_eval (s : FTState) (d : Disk) (m0 : MetaFileData)
    (hm : buildMetaJson s = .ok m0) :
    save_cache s .images d = .ok { d with
      imagesFile := d.imagesFile.write (.parsed (pyFromList (s.cached_images.map fun kv => (encodeNoneKey kv.1, (FImage.asdict kv.2.1, TsVal.valid kv.2.2)))))
      cacheMetadataFile := d.cacheMetadataFile.write (.parsed m0) } := by
  simp only [save_cache, writeMetadata, hm, Except.map]

theorem save_image_descriptions_eval (s : FTState) (d : Disk) (m0 : MetaFileData)
    (hm : buildMetaJson s = .ok m0) :
    save_cache s .imageDescriptions d = .ok { d with
      imageDescriptionsFile := d.imageDescriptionsFile.write (.parsed (pyFromList (s.cached_image_descriptions.map fun kv => (kv.1, (ImageDescription.asdict kv.2.1, TsVal.valid kv.2.2)))))
      cacheMetadataFile := d.cacheMetadataFile.write (.parsed m0) } := by
  simp only [save_cache, writeMetadata, hm, Except.map]

theorem save_chapters_eval (s : FTState) (d : Disk) (chM : PyDict String Chapter)
    (chT : Time) (m0 : MetaFileData) (hch : s.cached_chapters = some (chM, chT))
    (hm : buildMetaJson s = .ok m0) :
    save_cache s .chapters d = .ok { d with
      chaptersFile := d.chaptersFile.write (.parsed (pyFromList (chM.map fun kv => (kv.1, Chapter.asdict kv.2)), TsVal.valid chT))
      cacheMetadataFile := d.cacheMetadataFile.write (.parsed m0) } := by
  simp only [save_cache, hch, writeMetadata, hm, Except.map]

theorem save_records_eval (s : FTState) (d : Disk) (m0 : MetaFileData)
    (hm : buildMetaJson s = .ok m0) :
    save_cache s .records d = .ok { d with
      recordsFile := d.recordsFile.write (.parsed (pyFromList (s.cached_records.map fun kv => (kv.1, (Record.asdict kv.2.1, TsVal.valid kv.2.2)))))
      cacheMetadataFile := d.cacheMetadataFile.write (.parsed m0) } := by
  simp only [save_cache, writeMetadata, hm, Except.map]

theorem save_record_contents_eval (s : FTState) (d : Disk) (m0 : MetaFileData)
    (hm : buildMetaJson s = .ok m0) :
    save_cache s .recordContents d = .ok { d with
      recordContentsFile := d.recordContentsFile.write (.parsed (pyFromList (s.cached_record_contents.map fun kv => (kv.1, (RecordText.asdict kv.2.1, TsVal.valid kv.2.2)))))
      cacheMetadataFile := d.cacheMetadataFile.write (.parsed m0) } := by
  simp only [save_cache, writeMetadata, hm, Except.map]

theorem save_search_results_eval (s : FTState) (d : Disk) (m0 : MetaFileData)
    (hm : buildMetaJson s = .ok m0) :
    save_cache s .searchResults d = .ok { d with
      searchResultsFile := d.searchResultsFile.write (.parsed (pyFromList (s.cached_search_results.map fun kv => (kv.1.1 ++ '|' :: kv.1.2, (kv.2.1.map SearchResult.asdict, TsVal.valid kv.2.2)))))
      cacheMetadataFile := d.cacheMetadataFile.write (.parsed m0) } := by
  simp only [save_cache, writeMetadata, hm, Except.map]

theorem save_full_record_contents_eval (s : FTState) (d : Disk)
    (frM : PyDict String RecordText) (frT : Time) (m0 : MetaFileData)
    (hfr : s.cached_full_record_contents = some (frM, frT))
    (hm : buildMetaJson s = .ok m0) :
    save_cache s .fullRecordContents d = .ok { d with
      fullRecordContentsFile := d.fullRecordContentsFile.write (.parsed (pyFromList (frM.map fun kv => (kv.1, RecordText.asdict kv.2)), TsVal.valid frT))
      cacheMetadataFile := d.cacheMetadataFile.write (.parsed m0) } := by
  simp only [save_cache, hfr, writeMetadata, hm, Except.map]

theorem ic_fold_components (l : List ((Option String) × (ImageBin × ImageBin) × Time)) :
    ∀ (d : Disk) (acc : ImageContentsIndexData),
      l.foldl (fun (acc2 : Disk × ImageContentsIndexData) kv =>
          let name := encodeNoneKey kv.1
          let dAcc := acc2.1
          let dAcc := { dAcc with imageFiles := pyFileWrite dAcc.imageFiles name kv.2.1.1 }
          let dAcc := { dAcc with thumbFiles := pyFileWrite dAcc.thumbFiles name kv.2.1.2 }
          (dAcc, pyUpdate acc2.2 name (TsVal.valid kv.2.2))) (d, acc)
        = ({ d with
              imageFiles := l.foldl (fun fs kv =>
                pyFileWrite fs (encodeNoneKey kv.1) kv.2.1.1) d.imageFiles
              thumbFiles := l.foldl (fun fs kv =>
                pyFileWrite fs (encodeNoneKey kv.1) kv.2.1.2) d.thumbFiles },
           l.foldl (fun a kv => pyUpdate a (encodeNoneKey kv.1) (TsVal.valid kv.2.2)) acc) := by
  induction l with
  | nil => intro d acc; rfl
  | cons hd tl ih =>
      intro d acc
      simp only [List.foldl_cons]
      exact ih _ _

theorem save_image_contents_eval (s : FTState) (d : Disk) :
    save_cache s .imageContents d = .ok { d with
      imageContentsDir := true
      imageFiles := s.cached_image_contents.foldl (fun fs kv =>
        pyFileWrite fs (encodeNoneKey kv.1) kv.2.1.1) d.imageFiles
      thumbFiles := s.cached_image_contents.foldl (fun fs kv =>
        pyFileWrite fs (encodeNoneKey kv.1) kv.2.1.2) d.thumbFiles
      imageContentsIndexFile := d.imageContentsIndexFile.write (.parsed
        (s.cached_image_contents.foldl (fun a kv =>
          pyUpdate a (encodeNoneKey kv.1) (TsVal.valid kv.2.2)) [])) } := by
  simp only [save_cache]
  rw [ic_fold_components s.cached_image_contents { d with imageContentsDir := true } []]
  rfl

/-! ## Round-trip content lemmas -/

theorem rindexSplit?_none (sep : Char) (l : List Char) (h : sep ∉ l) :
    rindexSplit? sep l = none := by
  induction l with
  | nil => rfl
  | cons c rest ih =>
      simp only [List.mem_cons] at h
      push_neg at h
      simp [rindexSplit?, ih h.2, Ne.symm h.1]

theorem rindexSplit?_encode (t ty : List Char) (h : '|' ∉ ty) :
    rindexSplit? '|' (t ++ '|' :: ty) = some (t, ty) := by
  induction t with
  | nil => simp [rindexSplit?, rindexSplit?_none '|' ty h]
  | cons c ct ih => simp [rindexSplit?, ih]

theorem parseEntries_roundtrip {κ κ' α β : Type} (fk : κ' → κ) (gk : κ → Option κ')
    (fv : β → α) (gv : α → β) :
    ∀ l : List (κ' × β × Time),
      (∀ kv ∈ l, gk (fk kv.1) = some kv.1) →
      (∀ kv ∈ l, gv (fv kv.2.1) = kv.2.1) →
      parseEntries gk gv (l.map fun kv => (fk kv.1, fv kv.2.1, TsVal.valid kv.2.2))
        = some l := by
  intro l
  induction l with
  | nil => intro _ _; rfl
  | cons hd tl ih =>
      intro hk hv
      simp only [List.map_cons, parseEntries]
      rw [hk hd (by simp)]
      simp only [parseTs]
      rw [ih (fun kv h => hk kv (by simp [h])) (fun kv h => hv kv (by simp [h]))]
      simp [hv hd (by simp)]

theorem jsonTableVal_roundtrip {κ κ' α β : Type} [DecidableEq κ] [DecidableEq κ'] (fk : κ' → κ)
    (gk : κ → Option κ') (fv : β → α) (gv : α → β) (l : PyDict κ' (β × Time))
    (hk : ∀ k ∈ pyKeys l, gk (fk k) = some k)
    (hv : ∀ kv ∈ l, gv (fv kv.2.1) = kv.2.1)
    (hnd : (pyKeys l).Nodup) :
    jsonTableVal gk gv (some (.parsed (pyFromList (l.map fun kv =>
      (fk kv.1, (fv kv.2.1, TsVal.valid kv.2.2)))))) [] = l := by
  have hinj : ((l.map fun kv => (fk kv.1, (fv kv.2.1, TsVal.valid kv.2.2))).map
      Prod.fst).Nodup := by
    have : ((l.map fun kv => (fk kv.1, (fv kv.2.1, TsVal.valid kv.2.2))).map Prod.fst)
        = (pyKeys l).map fk := by
      simp [pyKeys, List.map_map, Function.comp]
    rw [this]
    refine List.Nodup.map_on ?_ hnd
    intro x hx y hy hxy
    have h1 := hk x hx
    have h2 := hk y hy
    rw [hxy, h2] at h1
    exact (Option.some.inj h1).symm
  have h1 : pyFromList (l.map fun kv => (fk kv.1, (fv kv.2.1, TsVal.valid kv.2.2)))
      = l.map fun kv => (fk kv.1, (fv kv.2.1, TsVal.valid kv.2.2)) :=
    pyFromList_eq_self _ (by simpa [pyKeys] using hinj)
  simp only [jsonTableVal, h1]
  rw [parseEntries_roundtrip fk gk fv gv l
    (fun kv hkv => hk kv.1 (List.mem_map_of_mem _ hkv)) hv]
  exact pyFromList_eq_self _ hnd

theorem jsonTupleVal_roundtrip {κ α β : Type} [DecidableEq κ] (f : β → α) (g : α → β)
    (m : PyDict κ β) (t : Time) (prev : Option (PyDict κ β × Time))
    (hg : ∀ kv ∈ m, g (f kv.2) = kv.2)
    (hnd : (pyKeys m).Nodup) :
    jsonTupleVal g (some (.parsed (pyFromList (m.map fun kv => (kv.1, f kv.2)),
      TsVal.valid t))) prev = some (m, t) := by
  have h1 : pyFromList (m.map fun kv => (kv.1, f kv.2)) = m.map fun kv => (kv.1, f kv.2) :=
    pyFromList_eq_self _ (by simpa [pyKeys, List.map_map, Function.comp] using hnd)
  simp only [jsonTupleVal, h1, parseTs, List.map_map]
  have h2 : m.map ((fun kv : κ × α => (kv.1, g kv.2)) ∘ fun kv : κ × β => (kv.1, f kv.2))
      = m := by
    calc m.map ((fun kv : κ × α => (kv.1, g kv.2)) ∘ fun kv : κ × β => (kv.1, f kv.2))
        = m.map id := List.map_congr_left (fun kv hkv => by
          simp [Function.comp, hg kv hkv])
      _ = m := List.map_id m
  rw [h2, pyFromList_eq_self _ hnd]

theorem foldl_fileWrite_get_ne {β : Type} (nm : β → String) (bt : β → ImageBin) :
    ∀ (l : List β) (init : PyDict String (FileSlot ImageBin)) (k : String),
      k ∉ l.map nm →
      pyGet? (l.foldl (fun fs x => pyFileWrite fs (nm x) (bt x)) init) k
        = pyGet? init k := by
  intro l
  induction l with
  | nil => intro init k _; rfl
  | cons hd tl ih =>
      intro init k hk
      simp only [List.map_cons, List.mem_cons] at hk
      push_neg at hk
      simp only [List.foldl_cons]
      rw [ih _ k hk.2]
      exact pyGet?_update_ne _ _ _ _ hk.1

theorem foldl_fileWrite_get {β : Type} (nm : β → String) (bt : β → ImageBin) :
    ∀ (l : List β) (init : PyDict String (FileSlot ImageBin)),
      (l.map nm).Nodup →
      ∀ kv ∈ l,
        (pyGet? (l.foldl (fun fs x => pyFileWrite fs (nm x) (bt x)) init) (nm kv)).bind
            FileSlot.cur
          = some (bt kv) := by
  intro l
  induction l with
  | nil => intro init _ kv h; cases h
  | cons hd tl ih =>
      intro init hnd kv hkv
      simp only [List.map_cons, List.nodup_cons] at hnd
      simp only [List.foldl_cons]
      rcases List.mem_cons.mp hkv with heq | hmem
      · subst heq
        rw [foldl_fileWrite_get_ne nm bt tl _ (nm kv) hnd.1]
        rw [show pyFileWrite init (nm kv) (bt kv)
            = pyUpdate init (nm kv) (((pyGet? init (nm kv)).getD .empty).write (bt kv))
          from rfl]
        rw [pyGet?_update_self]
        rfl
      · exact ih _ hnd.2 kv hmem

theorem decodeNoneKey_encode (k : Option String) (h : k ≠ some "__None__") :
    decodeNoneKey (encodeNoneKey k) = k := by
  cases k with
  | none => rfl
  | some n =>
      have : n ≠ "__None__" := fun hn => h (by rw [hn])
      simp [encodeNoneKey, decodeNoneKey, this]

theorem icVal_eval (d : Disk)
    (l : PyDict (Option String) ((ImageBin × ImageBin) × Time))
    (himg : ∀ kv ∈ l,
      (pyGet? d.imageFiles (encodeNoneKey kv.1)).bind FileSlot.cur = some kv.2.1.1)
    (hth : ∀ kv ∈ l,
      (pyGet? d.thumbFiles (encodeNoneKey kv.1)).bind FileSlot.cur = some kv.2.1.2)
    (hdec : ∀ kv ∈ l, decodeNoneKey (encodeNoneKey kv.1) = kv.1) :
    ∀ acc, icVal d acc (l.map fun kv => (encodeNoneKey kv.1, TsVal.valid kv.2.2))
      = l.foldl (fun a kv => pyUpdate a kv.1 kv.2) acc := by
  induction l with
  | nil => intro acc; rfl
  | cons hd tl ih =>
      intro acc
      simp only [List.map_cons, List.foldl_cons, icVal, parseTs]
      rw [himg hd (by simp), hth hd (by simp)]
      show icVal d
        (pyUpdate acc (decodeNoneKey (encodeNoneKey hd.1)) ((hd.2.1.1, hd.2.1.2), hd.2.2))
        (tl.map fun kv => (encodeNoneKey kv.1, TsVal.valid kv.2.2))
        = tl.foldl (fun a kv => pyUpdate a kv.1 kv.2) (pyUpdate acc hd.1 hd.2)
      rw [hdec hd (by simp)]
      exact ih (fun kv h => himg kv (by simp [h])) (fun kv h => hth kv (by simp [h]))
        (fun kv h => hdec kv (by simp [h])) _

theorem encodeNoneKey_nodup (ks : List (Option String))
    (hmem : some "__None__" ∉ ks) (hnd : ks.Nodup) : (ks.map encodeNoneKey).Nodup := by
  refine hnd.map_on ?_
  intro x hx y hy hxy
  have hdx := decodeNoneKey_encode x (fun he => hmem (he ▸ hx))
  have hdy := decodeNoneKey_encode y (fun he => hmem (he ▸ hy))
  rw [← hdx, ← hdy, hxy]

/-- **C4 (amended).** From any well-formed state (singleton domains populated,
metadata fields free of load residue, uniquely keyed tables — as Python dicts
guarantee — no images/image-contents key equal to the reserved sentinel string
`"__None__"`, and no `"|"` in a search key's type part), saving every domain
and loading in a fresh instance reproduces every domain's key set, values, and
cached-at timestamps exactly; for image contents, the byte payloads of image
and thumbnail are reproduced per key, re-paired with the index timestamps.  (A
table holding the literal key `"__None__"` is the exception the counterexample
shows: it is loaded back under the `None` sentinel key.) -/
theorem C4_save_load_roundtrip (s : FTState) (d0 : Disk)
    (nwItems : List NewsEntry) (nwT : Time)
    (chM : PyDict String Chapter) (chT : Time)
    (frM : PyDict String RecordText) (frT : Time)
    (hnw : s.cached_news_items = some (nwItems, nwT))
    (hch : s.cached_chapters = some (chM, chT))
    (hfr : s.cached_full_record_contents = some (frM, frT))
    (hm1 : properMarker s.last_all_images_cache = true)
    (hm2 : properMarker s.last_full_episodic_cache = true)
    (hm3 : properPurgeMap s.last_cache_purge = true)
    (hkimg : some "__None__" ∉ pyKeys s.cached_images)
    (hkic : some "__None__" ∉ pyKeys s.cached_image_contents)
    (hksr : ∀ k ∈ pyKeys s.cached_search_results, ('|' : Char) ∉ k.2)
    (hnd1 : (pyKeys s.cached_images).Nodup)
    (hnd2 : (pyKeys s.cached_image_contents).Nodup)
    (hnd3 : (pyKeys s.cached_image_descriptions).Nodup)
    (hnd4 : (pyKeys chM).Nodup)
    (hnd5 : (pyKeys s.cached_records).Nodup)
    (hnd6 : (pyKeys s.cached_record_contents).Nodup)
    (hnd7 : (pyKeys s.cached_search_results).Nodup)
    (hnd8 : (pyKeys frM).Nodup) :
    ∃ d9, saveAll s d0 = .ok d9 ∧
      (load_all_cache initState d9).1.cached_news_items = s.cached_news_items ∧
      (load_all_cache initState d9).1.cached_images = s.cached_images ∧
      (load_all_cache initState d9).1.cached_image_descriptions
        = s.cached_image_descriptions ∧
      (load_all_cache initState d9).1.cached_chapters = s.cached_chapters ∧
      (load_all_cache initState d9).1.cached_records = s.cached_records ∧
      (load_all_cache initState d9).1.cached_record_contents
        = s.cached_record_contents ∧
      (load_all_cache initState d9).1.cached_search_results
        = s.cached_search_results ∧
      (load_all_cache initState d9).1.cached_full_record_contents
        = s.cached_full_record_contents ∧
      (load_all_cache initState d9).1.cached_image_contents
        = s.cached_image_contents := by
  obtain ⟨m0, hm0⟩ := buildMetaJson_ok s hm1 hm2 hm3
  have hsave : saveAll s d0
      = .ok (savedDisk s d0 m0 (nwItems, nwT) (chM, chT) (frM, frT)) := by
    simp only [saveAll, exceptBind_ok,
      save_news_eval s _ nwItems nwT m0 hnw hm0,
      save_images_eval s _ m0 hm0,
      save_image_contents_eval,
      save_image_descriptions_eval s _ m0 hm0,
      save_chapters_eval s _ chM chT m0 hch hm0,
      save_records_eval s _ m0 hm0,
      save_record_contents_eval s _ m0 hm0,
      save_search_results_eval s _ m0 hm0,
      save_full_record_contents_eval s _ frM frT m0 hfr hm0]
    rfl
  obtain ⟨d9, hd9⟩ : ∃ d9, d9 = savedDisk s d0 m0 (nwItems, nwT) (chM, chT) (frM, frT) :=
    ⟨_, rfl⟩
  rw [← hd9] at hsave
  have hf1 : d9.newsFile.cur = some (.parsed (nwItems.map NewsEntry.asdict, TsVal.valid nwT)) := by rw [hd9]; rfl
  have hf2 : d9.imagesFile.cur = some (.parsed (pyFromList (s.cached_images.map fun kv => (encodeNoneKey kv.1, (FImage.asdict kv.2.1, TsVal.valid kv.2.2))))) := by rw [hd9]; rfl
  have hf3 : d9.imageDescriptionsFile.cur = some (.parsed (pyFromList (s.cached_image_descriptions.map fun kv => (kv.1, (ImageDescription.asdict kv.2.1, TsVal.valid kv.2.2))))) := by rw [hd9]; rfl
  have hf4 : d9.chaptersFile.cur = some (.parsed (pyFromList (chM.map fun kv => (kv.1, Chapter.asdict kv.2)), TsVal.valid chT)) := by rw [hd9]; rfl
  have hf5 : d9.recordsFile.cur = some (.parsed (pyFromList (s.cached_records.map fun kv => (kv.1, (Record.asdict kv.2.1, TsVal.valid kv.2.2))))) := by rw [hd9]; rfl
  have hf6 : d9.recordContentsFile.cur = some (.parsed (pyFromList (s.cached_record_contents.map fun kv => (kv.1, (RecordText.asdict kv.2.1, TsVal.valid kv.2.2))))) := by rw [hd9]; rfl
  have hf7 : d9.searchResultsFile.cur = some (.parsed (pyFromList (s.cached_search_results.map fun kv => (kv.1.1 ++ '|' :: kv.1.2, (kv.2.1.map SearchResult.asdict, TsVal.valid kv.2.2))))) := by rw [hd9]; rfl
  have hf8 : d9.fullRecordContentsFile.cur = some (.parsed (pyFromList (frM.map fun kv => (kv.1, RecordText.asdict kv.2)), TsVal.valid frT)) := by rw [hd9]; rfl
  have hfdir : d9.imageContentsDir = true := by rw [hd9]; rfl
  have hfidx : d9.imageContentsIndexFile.cur = some (.parsed (s.cached_image_contents.foldl (fun a kv => pyUpdate a (encodeNoneKey kv.1) (TsVal.valid kv.2.2)) [])) := by rw [hd9]; rfl
  have hfimg : d9.imageFiles = s.cached_image_contents.foldl (fun fs kv => pyFileWrite fs (encodeNoneKey kv.1) kv.2.1.1) d0.imageFiles := by rw [hd9]; rfl
  have hfth : d9.thumbFiles = s.cached_image_contents.foldl (fun fs kv => pyFileWrite fs (encodeNoneKey kv.1) kv.2.1.2) d0.thumbFiles := by rw [hd9]; rfl
  have hencNodup : (s.cached_image_contents.map fun kv => encodeNoneKey kv.1).Nodup := by
    have : (s.cached_image_contents.map fun kv => encodeNoneKey kv.1)
        = (pyKeys s.cached_image_contents).map encodeNoneKey := by
      simp [pyKeys, List.map_map, Function.comp]
    rw [this]
    exact encodeNoneKey_nodup _ hkic hnd2
  refine ⟨d9, hsave, ?_, ?_, ?_, ?_, ?_, ?_, ?_, ?_, ?_⟩
  · -- news
    rw [load_all_cache_state, hnw]
    show newsVal d9 none = some (nwItems, nwT)
    simp only [newsVal, hf1, parseTs]
    simp [NewsEntry.asdict, NewsEntry.from_obj]
  · -- images
    rw [load_all_cache_state]
    show jsonTableVal (fun i => some (decodeNoneKey i)) FImage.from_obj
      d9.imagesFile.cur [] = s.cached_images
    rw [hf2]
    refine jsonTableVal_roundtrip encodeNoneKey _ FImage.asdict _ s.cached_images
      ?_ (fun kv _ => rfl) hnd1
    intro k hkmem
    rw [decodeNoneKey_encode k (fun he => hkimg (he ▸ hkmem))]
  · -- image descriptions
    rw [load_all_cache_state]
    show jsonTableVal (fun i => some i) ImageDescription.from_obj
      d9.imageDescriptionsFile.cur [] = s.cached_image_descriptions
    rw [hf3]
    exact jsonTableVal_roundtrip id _ ImageDescription.asdict _
      s.cached_image_descriptions (fun k _ => rfl) (fun kv _ => rfl) hnd3
  · -- chapters
    rw [load_all_cache_state, hch]
    show jsonTupleVal Chapter.from_obj d9.chaptersFile.cur none = some (chM, chT)
    rw [hf4]
    exact jsonTupleVal_roundtrip Chapter.asdict Chapter.from_obj chM chT none
      (fun kv _ => rfl) hnd4
  · -- records
    rw [load_all_cache_state]
    show jsonTableVal (fun i => some i) Record.from_obj d9.recordsFile.cur []
      = s.cached_records
    rw [hf5]
    exact jsonTableVal_roundtrip id _ Record.asdict _ s.cached_records
      (fun k _ => rfl) (fun kv _ => rfl) hnd5
  · -- record contents
    rw [load_all_cache_state]
    show jsonTableVal (fun i => some i)
      (fun o : RecordTextObj => RecordText.from_obj o.title o)
      d9.recordContentsFile.cur [] = s.cached_record_contents
    rw [hf6]
    exact jsonTableVal_roundtrip id _ RecordText.asdict _ s.cached_record_contents
      (fun k _ => rfl) (fun kv _ => rfl) hnd6
  · -- search results
    rw [load_all_cache_state]
    show jsonTableVal (rindexSplit? '|') (List.map SearchResult.from_obj)
      d9.searchResultsFile.cur [] = s.cached_search_results
    rw [hf7]
    refine jsonTableVal_roundtrip (fun k => k.1 ++ '|' :: k.2) _
      (List.map SearchResult.asdict) _ s.cached_search_results ?_ ?_ hnd7
    · intro k hkmem
      exact rindexSplit?_encode k.1 k.2 (hksr k hkmem)
    · intro kv _
      simp [List.map_map, SearchResult.asdict, SearchResult.from_obj]
  · -- full record contents
    rw [load_all_cache_state, hfr]
    show jsonTupleVal (fun o : RecordTextObj => RecordText.from_obj o.title o)
      d9.fullRecordContentsFile.cur none = some (frM, frT)
    rw [hf8]
    exact jsonTupleVal_roundtrip RecordText.asdict _ frM frT none
      (fun kv _ => rfl) hnd8
  · -- image contents
    rw [load_all_cache_state]
    show imageContentsVal d9 [] = s.cached_image_contents
    unfold imageContentsVal
    rw [hfdir, hfidx]
    have hidx : s.cached_image_contents.foldl (fun a kv =>
          pyUpdate a (encodeNoneKey kv.1) (TsVal.valid kv.2.2)) []
        = s.cached_image_contents.map fun kv => (encodeNoneKey kv.1, TsVal.valid kv.2.2) :=
      foldl_pyUpdate_map _ _ _ hencNodup
    rw [hidx]
    simp only [Bool.true_eq_false, if_false]
    have hicval := icVal_eval d9 s.cached_image_contents
      (fun kv hkv => by
        rw [hfimg]
        exact foldl_fileWrite_get (fun kv2 => encodeNoneKey kv2.1) (fun kv2 => kv2.2.1.1)
          s.cached_image_contents d0.imageFiles hencNodup kv hkv)
      (fun kv hkv => by
        rw [hfth]
        exact foldl_fileWrite_get (fun kv2 => encodeNoneKey kv2.1) (fun kv2 => kv2.2.1.2)
          s.cached_image_contents d0.thumbFiles hencNodup kv hkv)
      (fun kv hkv => decodeNoneKey_encode kv.1
        (fun he => hkic (he ▸ List.mem_map_of_mem Prod.fst hkv)))
      []
    rw [hicval]
    have : s.cached_image_contents.foldl (fun a kv => pyUpdate a kv.1 kv.2) []
        = pyFromList s.cached_image_contents := rfl
    rw [this]
    exact pyFromList_eq_self _ hnd2

/-- **C4 (counterexample).** The claim asserts an unconditional key/value
round trip.  An images table whose key is the literal string `"__None__"` —
the reserved on-disk substitute for the `None` sentinel key — is saved under
that sentinel and loaded back under the `None` key: the key set changes. -/
theorem C4_sentinel_key_counterexample :
    (save_cache stateC4 .images emptyDisk).map
        (fun d => (load_images initState d).1.cached_images)
      = .ok [(none, (imgX, 0))] ∧
    pyKeys [((none : Option String), (imgX, (0 : Time)))]
      ≠ pyKeys stateC4.cached_images := by
  exact ⟨rfl, by decide⟩

/-- Witness for the amended C4: a state populated in every domain round-trips
through `saveAll` and a cold `load_all_cache`. -/
theorem C4_save_load_roundtrip_witness :
    ∃ d9, saveAll stateW emptyDisk = .ok d9 ∧
      (load_all_cache initState d9).1.cached_news_items = stateW.cached_news_items ∧
      (load_all_cache initState d9).1.cached_images = stateW.cached_images ∧
      (load_all_cache initState d9).1.cached_image_descriptions
        = stateW.cached_image_descriptions ∧
      (load_all_cache initState d9).1.cached_chapters = stateW.cached_chapters ∧
      (load_all_cache initState d9).1.cached_records = stateW.cached_records ∧
      (load_all_cache initState d9).1.cached_record_contents
        = stateW.cached_record_contents ∧
      (load_all_cache initState d9).1.cached_search_results
        = stateW.cached_search_results ∧
      (load_all_cache initState d9).1.cached_full_record_contents
        = stateW.cached_full_record_contents ∧
      (load_all_cache initState d9).1.cached_image_contents
        = stateW.cached_image_contents :=
  C4_save_load_roundtrip stateW emptyDisk
    [{ title := "n" }] 1 [("c", chapY)] 5
    [("r", { title := "t", lines := ["l"] })] 9
    rfl rfl rfl rfl rfl rfl
    (by decide) (by decide) (by decide)
    (by decide) (by decide) (by decide) (by decide) (by decide) (by decide)
    (by decide) (by decide)

end Fractalthorns
